import Mathlib

/-!
# Verification of the Netflix reconciliation engine (actors/people pipeline)

A shallow embedding, in Lean 4, of the resumable reconciliation engine of the
`netflix_marketing_analytics` repository:

* `controllers/actors_titles_controller.py` — the Relationship Builder
  (`populate_actors_titles_table_from_temp`, `_process_single_record`,
  `_find_actor_id`, `_create_missing_actor`, caches, temp-table stager);
* `controllers/directors_controller.py` — `parse_director_name`;
* `controllers/people_controller.py` — `normalize_name`,
  `create_temp_people_table`;
* `repositories/people_repository.py` / `actors_repository.py` — store access
  (`get_by_name` with ILIKE matching, `create`, `actor_exists`).

Python strings are modelled as `List Char`; Python string methods
(`strip`, `lower`, `split`, `join`, `replace`) are defined below with their
Python semantics.  Database tables are lists of rows; the per-record
transaction of `_process_single_record` is modelled by explicit state passing
(the transaction's writes are applied on commit and discarded on rollback,
while repository writes, which the source performs on separate connections
that commit immediately, are applied at once).  Exceptions raised by database
operations are modelled by an explicit fault record.
-/

/-! ## Python string primitives -/

/-- Python strings, modelled as lists of characters. -/
abbrev Str := List Char

/-- `str.strip()` with no arguments: drop leading and trailing whitespace. -/
def pyStrip (s : Str) : Str :=
  ((s.dropWhile Char.isWhitespace).reverse.dropWhile Char.isWhitespace).reverse

/-- `str.strip(chars)`: drop leading and trailing characters from `cs`. -/
def pyStripSet (cs : List Char) (s : Str) : Str :=
  ((s.dropWhile (· ∈ cs)).reverse.dropWhile (· ∈ cs)).reverse

/-- `str.lower()` (restricted to the case mapping Lean's `Char.toLower`
implements; every character the pipeline's tests exercise is ASCII). -/
def pyLower (s : Str) : Str := s.map Char.toLower

/-- `str.replace(old, "")` for a one-character `old`. -/
def pyRemoveChar (c : Char) (s : Str) : Str := s.filter (fun x => !(x = c : Bool))

/-- `str.replace(old, new)` for one-character `old` and `new`. -/
def pyReplaceChar (a b : Char) (s : Str) : Str :=
  s.map (fun c => if c = a then b else c)

/-- Helper for `str.split()`: accumulates the current token (reversed). -/
def pySplitWSAux : Str → Str → List Str
  | [], acc => if acc = [] then [] else [acc.reverse]
  | c :: cs, acc =>
    if c.isWhitespace then
      if acc = [] then pySplitWSAux cs [] else acc.reverse :: pySplitWSAux cs []
    else pySplitWSAux cs (c :: acc)

/-- `str.split()` with no arguments: split on whitespace runs, no empty
tokens, leading/trailing whitespace ignored. -/
def pySplitWS (s : Str) : List Str := pySplitWSAux s []

/-- Helper for `str.split(',')`. -/
def pySplitCommaAux : Str → Str → List Str
  | [], acc => [acc.reverse]
  | c :: cs, acc =>
    if c = ',' then acc.reverse :: pySplitCommaAux cs []
    else pySplitCommaAux cs (c :: acc)

/-- `str.split(',')`: split at every comma, keeping empty pieces. -/
def pySplitComma (s : Str) : List Str := pySplitCommaAux s []

/-- `" ".join(tokens)`. -/
def pyJoinSpace : List Str → Str
  | [] => []
  | [t] => t
  | t :: t' :: ts => t ++ ' ' :: pyJoinSpace (t' :: ts)

/-- Does `pat` occur at the start of `hay`? -/
def strStartsWith : Str → Str → Bool
  | _, [] => true
  | [], _ :: _ => false
  | c :: cs, p :: ps => (c = p : Bool) && strStartsWith cs ps

/-- Does `pat` occur anywhere inside `hay`? -/
def strContainsSub (hay pat : Str) : Bool :=
  if strStartsWith hay pat then true
  else
    match hay with
    | [] => false
    | _ :: t => strContainsSub t pat

/-- SQL `s ILIKE '%pat%'`: case-insensitive substring match (pattern
metacharacters are modelled as literals; the toplevel `%`-wildcards of the
patterns the repositories build are what the substring search models). -/
def sqlIlike (s pat : Str) : Bool := strContainsSub (pyLower s) (pyLower pat)

/-! ## `DirectorsController.parse_director_name` -/

/-- The `{first_name, middle_name, last_name}` dictionary returned by
`parse_director_name` and consumed by `get_or_create_person`. -/
structure ParsedName where
  first_name : Str
  middle_name : Option Str
  last_name : Option Str
deriving DecidableEq, Repr

/-- `DirectorsController.parse_director_name` (directors_controller.py,
lines 105–147): split the stripped name on whitespace and assign
first/middle/last by word count.  The empty-split case is unreachable
(a non-empty stripped string always splits into at least one word) and is
modelled as `none`, matching the guard `if not full_name or not
full_name.strip(): return None`. -/
def parse_director_name (full_name : Str) : Option ParsedName :=
  if full_name = [] ∨ pyStrip full_name = [] then none
  else
    match pySplitWS (pyStrip full_name) with
    | [] => none
    | [w0] => some ⟨w0, none, none⟩
    | [w0, w1] => some ⟨w0, none, some w1⟩
    | [w0, w1, w2] => some ⟨w0, some w1, some (pyJoinSpace [w2])⟩
    | w0 :: w1 :: w2 :: w3 :: ws => some ⟨w0, some w1, some (pyJoinSpace (w2 :: w3 :: ws))⟩

/-! ## `PeopleController.normalize_name` -/

/-- One step of `unicodedata.normalize('NFKD', name).encode('ASCII',
'ignore')`, per character: ASCII characters pass through; accented Latin
letters decompose into their base letter followed by a combining mark that
`'ignore'` drops; characters with no ASCII-compatible decomposition are
dropped entirely. -/
def nfkdAsciiChar (c : Char) : Str :=
  if c.toNat < 128 then [c]
  else
    match c with
    | 'á' => ['a'] | 'é' => ['e'] | 'í' => ['i'] | 'ó' => ['o'] | 'ú' => ['u']
    | 'Á' => ['A'] | 'É' => ['E'] | 'Í' => ['I'] | 'Ó' => ['O'] | 'Ú' => ['U']
    | 'à' => ['a'] | 'è' => ['e'] | 'ì' => ['i'] | 'ò' => ['o'] | 'ù' => ['u']
    | 'ä' => ['a'] | 'ë' => ['e'] | 'ï' => ['i'] | 'ö' => ['o'] | 'ü' => ['u']
    | 'â' => ['a'] | 'ê' => ['e'] | 'î' => ['i'] | 'ô' => ['o'] | 'û' => ['u']
    | 'ñ' => ['n'] | 'Ñ' => ['N'] | 'ç' => ['c'] | 'Ç' => ['C']
    | _ => []

/-- Concatenating character expansion (`"".join(map(f, s))`). -/
def concatMapChars (f : Char → Str) : Str → Str
  | [] => []
  | c :: cs => f c ++ concatMapChars f cs

/-- `PeopleController.normalize_name` (people_controller.py, lines 156–171):
strip, strip surrounding quotes, delete smart quotes, zero-width spaces and
hyphens, map non-breaking spaces to spaces, strip again, then NFKD-decompose
and drop all non-ASCII.  It neither collapses internal whitespace nor
lowercases. -/
def normalize_name (name : Str) : Str :=
  let s1 := pyStrip name
  let s2 := pyStripSet [Char.ofNat 39, '"'] s1
  let s3 := pyRemoveChar '‘' s2
  let s4 := pyRemoveChar '’' s3
  let s5 := pyRemoveChar '“' s4
  let s6 := pyRemoveChar '”' s5
  let s7 := pyRemoveChar (Char.ofNat 0x200b) s6
  let s8 := pyReplaceChar (Char.ofNat 0xa0) ' ' s7
  let s9 := pyRemoveChar '-' s8
  let s10 := pyStrip s9
  concatMapChars nfkdAsciiChar s10

/-! ## Database state

Tables touched by the actors-titles pipeline.  Lists model SQL tables; list
order models insertion order (`temp_actors_titles.id` is an ascending SERIAL
key, so the list order of `temp_actors_titles` is the `ORDER BY id` order). -/

/-- A row of `public.people`. -/
structure PersonRow where
  person_id : Nat
  first_name : Str
  middle_name : Option Str
  last_name : Option Str
deriving DecidableEq, Repr

/-- A row of `public.temp_actors_titles` (the staging table). -/
structure TempActorTitleRow where
  id : Nat
  show_id : Str
  actor_name : Str
  processed : Bool
deriving DecidableEq, Repr

/-- A row of `public.titles` (only the columns the Builder reads). -/
structure TitleRow where
  title_id : Nat
  code : Str
deriving DecidableEq, Repr

/-- The committed database state. `actors` holds the `actor_id` column of
`public.actors` (a foreign key to `people.person_id`); `actors_titles` holds
`(actor_id, title_id)` junction rows.  `next_person_id` models the SERIAL
sequence behind `people.person_id`. -/
structure DBState where
  temp_actors_titles : List TempActorTitleRow
  people : List PersonRow
  actors : List Nat
  titles : List TitleRow
  actors_titles : List (Nat × Nat)
  next_person_id : Nat
deriving DecidableEq, Repr

/-- SQL `TRIM(s)`: strips space characters (not general whitespace). -/
def sqlTrim (s : Str) : Str := pyStripSet [' '] s

/-! ## Controller caches (`self._people_cache`, `self._title_cache`)

A Python dict, modelled as an association list where a new binding is consed
in front and lookup returns the first match — i.e. last write wins, exactly
the dict's observable get/set behaviour. -/

/-- A Python `dict[str, int]`. -/
abbrev Cache := List (Str × Nat)

/-- `d.get(k)`. -/
def cacheGet : Cache → Str → Option Nat
  | [], _ => none
  | (k', v) :: rest, k => if k' = k then some v else cacheGet rest k

/-- `d[k] = v`. -/
def cacheSet (d : Cache) (k : Str) (v : Nat) : Cache := (k, v) :: d

/-- The mutable state of an `ActorsTitlesController` instance. -/
structure CtrlState where
  people_cache : Cache
  title_cache : Cache
deriving DecidableEq, Repr

/-- Which database operations raise an exception during one
`_process_single_record` call (the source swallows these exceptions at
various points; the flags make each `except` path reachable in the model). -/
structure Faults where
  people_get_by_name_raises : Bool
  people_create_raises : Bool
  actor_exists_raises : Bool
  actor_create_raises : Bool
  check_rel_raises : Bool
  insert_rel_raises : Bool
  mark_raises : Bool
  fallback_mark_raises : Bool
deriving DecidableEq, Repr

/-- The fault-free execution. -/
def noFaults : Faults := ⟨false, false, false, false, false, false, false, false⟩

/-! ## Repositories -/

/-- Python truthiness of an optional string argument (`if middle_name:`). -/
def optTruthy : Option Str → Bool
  | none => false
  | some s => !(s = [] : Bool)

/-- `column ILIKE '%pat%'` where the column may be NULL (a NULL column never
satisfies an ILIKE condition). -/
def ilikeCol : Option Str → Str → Bool
  | none, _ => false
  | some col, pat => sqlIlike col pat

/-- The WHERE clause `PeopleRepository.get_by_name` builds: one
`col ILIKE '%arg%'` conjunct per truthy argument. -/
def getByNameMatches (first : Str) (middle : Option Str) (last : Option Str)
    (p : PersonRow) : Bool :=
  (if first = [] then true else sqlIlike p.first_name first) &&
  (if optTruthy middle then ilikeCol p.middle_name (middle.getD []) else true) &&
  (if optTruthy last then ilikeCol p.last_name (last.getD []) else true)

/-- `PeopleRepository.get_by_name` (people_repository.py): returns `[]` when
no argument is truthy, otherwise the rows matching every ILIKE condition, in
table order. -/
def people_get_by_name (db : DBState) (first : Str) (middle : Option Str)
    (last : Option Str) : List PersonRow :=
  if first = [] ∧ optTruthy middle = false ∧ optTruthy last = false then []
  else db.people.filter (getByNameMatches first middle last)

/-! ## `ActorsTitlesController._find_actor_id` / `_create_missing_actor` -/

/-- `actor_name.strip().split()` with the source's fallback: an empty split
yields first name `"unknown"` (`parts[0] if parts else "unknown"`). -/
def name_parts (actor_name : Str) : List Str :=
  match pySplitWS (pyStrip actor_name) with
  | [] => ["unknown".toList]
  | ps => ps

/-- `" ".join(parts[1:]) if len(parts) > 1 else None`. -/
def tailJoin (ps : List Str) : Option Str :=
  match ps.tail with
  | [] => none
  | _ :: _ => some (pyJoinSpace ps.tail)

/-- `ActorsTitlesController._update_cache_for_actor`: cache the id under the
full lowercased/stripped name and under its first token. -/
def update_cache_for_actor (cs : CtrlState) (actor_name : Str) (actor_id : Nat) :
    CtrlState :=
  let key := pyStrip (pyLower actor_name)
  let c1 := cacheSet cs.people_cache key actor_id
  match pySplitWS key with
  | [] => { cs with people_cache := c1 }
  | w :: _ => { cs with people_cache := cacheSet c1 w actor_id }

/-- Continuation of `_create_missing_actor` after a `person_id` is known
(found or freshly created): ensure an `actors` row exists, then update the
cache.  `ActorsRepository` commits on its own connection, so the database
changes performed before an exception persist. -/
def ensure_actor_row (fl : Faults) (cs : CtrlState) (db : DBState)
    (person_id : Nat) (actor_name : Str) : Option Nat × CtrlState × DBState :=
  if fl.actor_exists_raises then (none, cs, db)
  else if db.actors.contains person_id then
    (some person_id, update_cache_for_actor cs actor_name person_id, db)
  else if fl.actor_create_raises then (none, cs, db)
  else
    let db' := { db with actors := db.actors ++ [person_id] }
    (some person_id, update_cache_for_actor cs actor_name person_id, db')

/-- `ActorsTitlesController._create_missing_actor` (actors_titles_controller.py,
lines 435–492): parse the raw name, look the person up by name, create the
person row if absent, ensure an actors row, update the cache; any exception
is caught and surfaces as `None` (with whatever repository writes already
committed left in place). -/
def create_missing_actor (fl : Faults) (cs : CtrlState) (db : DBState)
    (actor_name : Str) : Option Nat × CtrlState × DBState :=
  if fl.people_get_by_name_raises then (none, cs, db)
  else
    match people_get_by_name db ((name_parts actor_name).headD []) none
        (tailJoin (name_parts actor_name)) with
    | p :: _ => ensure_actor_row fl cs db p.person_id actor_name
    | [] =>
      if fl.people_create_raises then (none, cs, db)
      else
        ensure_actor_row fl cs
          { db with
              people := db.people ++
                [⟨db.next_person_id, (name_parts actor_name).headD [], none,
                  tailJoin (name_parts actor_name)⟩],
              next_person_id := db.next_person_id + 1 }
          db.next_person_id actor_name

/-- `ActorsTitlesController._find_actor_id` (lines 414–433): exact cache hit
on `actor_name.lower().strip()`, then first-token cache hit, then
`_create_missing_actor`. -/
def find_actor_id (fl : Faults) (cs : CtrlState) (db : DBState)
    (actor_name : Str) : Option Nat × CtrlState × DBState :=
  let key := pyStrip (pyLower actor_name)
  match cacheGet cs.people_cache key with
  | some id => (some id, cs, db)
  | none =>
    match pySplitWS key with
    | [] => create_missing_actor fl cs db actor_name
    | w :: _ =>
      match cacheGet cs.people_cache w with
      | some id => (some id, cs, db)
      | none => create_missing_actor fl cs db actor_name

/-! ## `ActorsTitlesController._process_single_record` and the drain loop -/

/-- `UPDATE public.temp_actors_titles SET processed = TRUE WHERE id = :id`. -/
def markProcessed (db : DBState) (rid : Nat) : DBState :=
  { db with temp_actors_titles := db.temp_actors_titles.map fun r =>
      if r.id = rid then { r with processed := true } else r }

/-- `ActorsTitlesController._check_existing_relationship` (lines 380–393):
count matching junction rows; on any query error, print and return `False`. -/
def check_existing_relationship (fl : Faults) (db : DBState) (actor_id title_id : Nat) :
    Bool :=
  if fl.check_rel_raises then false
  else db.actors_titles.contains (actor_id, title_id)

/-- `ActorsTitlesController._handle_failed_record` (lines 368–378): after a
rollback, try to mark the record processed in a separate transaction; if that
also fails, nothing is recorded (`return 0, 0, 0`). -/
def handle_failed_record (fl : Faults) (cs : CtrlState) (db : DBState) (rid : Nat) :
    CtrlState × DBState × (Nat × Nat × Nat) :=
  if fl.fallback_mark_raises then (cs, db, (0, 0, 0))
  else (cs, markProcessed db rid, (1, 0, 1))

/-- The mark-processed-then-commit tail shared by the miss and duplicate
branches of `_process_single_record` (`return 1, 0, 1`); a raising
`UPDATE` lands in the `except` handler. -/
def mark_and_skip (fl : Faults) (cs : CtrlState) (db : DBState) (rid : Nat) :
    CtrlState × DBState × (Nat × Nat × Nat) :=
  if fl.mark_raises then handle_failed_record fl cs db rid
  else (cs, markProcessed db rid, (1, 0, 1))

/-- `ActorsTitlesController._process_single_record` (lines 324–366).  The
record's transaction covers the junction-row insert and the processed mark;
an exception rolls both back and falls to `_handle_failed_record`.  Entity
resolution (`_find_actor_id`) commits through separate repository
connections, so its writes survive a later rollback.  `if not actor_id:` and
`if not title_id:` are Python truthiness tests, so an id of `0` counts as a
miss. -/
def process_single_record (fl : Faults) (cs : CtrlState) (db : DBState)
    (rid : Nat) (show_id : Str) (actor_name : Str) :
    CtrlState × DBState × (Nat × Nat × Nat) :=
  match find_actor_id fl cs db actor_name with
  | (aidOpt, cs1, db1) =>
    match aidOpt with
    | none => mark_and_skip fl cs1 db1 rid
    | some aid =>
      if aid = 0 then mark_and_skip fl cs1 db1 rid
      else
        match cacheGet cs1.title_cache show_id with
        | none => mark_and_skip fl cs1 db1 rid
        | some tid =>
          if tid = 0 then mark_and_skip fl cs1 db1 rid
          else if check_existing_relationship fl db1 aid tid then
            mark_and_skip fl cs1 db1 rid
          else if fl.insert_rel_raises then handle_failed_record fl cs1 db1 rid
          else if fl.mark_raises then handle_failed_record fl cs1 db1 rid
          else
            (cs1,
             markProcessed
               { db1 with actors_titles := db1.actors_titles ++ [(aid, tid)] } rid,
             (1, 1, 0))

/-- `ActorsTitlesController._process_batch` (lines 299–322): process each row
of the page in its own transaction, stripping the raw name first, and sum the
counters.  `flFor` assigns each staging id its fault pattern. -/
def process_batch (flFor : Nat → Faults) :
    CtrlState → DBState → List TempActorTitleRow →
    CtrlState × DBState × (Nat × Nat × Nat)
  | cs, db, [] => (cs, db, (0, 0, 0))
  | cs, db, r :: rs =>
    match process_single_record (flFor r.id) cs db r.id r.show_id (pyStrip r.actor_name) with
    | (cs1, db1, (p, c, s)) =>
      match process_batch flFor cs1 db1 rs with
      | (cs2, db2, (p', c', s')) => (cs2, db2, (p + p', c + c', s + s'))

/-- `ActorsTitlesController._build_people_cache` (lines 259–282): cache every
person who is an actor under `lower(trim(first)) + " " + lower(trim(last))`
(stripped) and under the lowered first name alone. -/
def build_people_cache (db : DBState) (cs : CtrlState) : CtrlState :=
  let actorPeople := db.people.filter fun p => db.actors.contains p.person_id
  let cache := actorPeople.foldl
    (fun cache p =>
      let first := pyLower (sqlTrim p.first_name)
      let last := pyLower (sqlTrim (p.last_name.getD []))
      let full := pyStrip (first ++ ' ' :: last)
      cacheSet (cacheSet cache full p.person_id) first p.person_id)
    cs.people_cache
  { cs with people_cache := cache }

/-- `ActorsTitlesController._build_title_cache` (lines 284–297). -/
def build_title_cache (db : DBState) (cs : CtrlState) : CtrlState :=
  { cs with title_cache :=
      db.titles.foldl (fun cache t => cacheSet cache t.code t.title_id) cs.title_cache }

/-- `SELECT ... FROM temp_actors_titles WHERE processed = FALSE ORDER BY id`. -/
def unprocessedRows (db : DBState) : List TempActorTitleRow :=
  db.temp_actors_titles.filter fun r => !r.processed

/-- `SELECT COUNT(*) FROM temp_actors_titles WHERE processed = FALSE`. -/
def countUnprocessed (db : DBState) : Nat := (unprocessedRows db).length

/-- The `while offset < total_unprocessed` loop of
`populate_actors_titles_table_from_temp` (lines 219–244).  Each iteration
pulls `LIMIT batch_size OFFSET offset` from the *current* unprocessed rows,
breaks on an empty page, otherwise processes the page and advances `offset`
by `batch_size`.  `fuel` only bounds the recursion: for `batch_size ≥ 1` the
loop runs at most `⌈total/batch_size⌉ ≤ total` iterations, so the
`total + 1` fuel the caller supplies is never exhausted. -/
def drain_loop (flFor : Nat → Faults) (bs total : Nat) :
    Nat → Nat → CtrlState → DBState → (Nat × Nat × Nat) →
    CtrlState × DBState × (Nat × Nat × Nat)
  | 0, _, cs, db, acc => (cs, db, acc)
  | fuel + 1, offset, cs, db, acc =>
    if offset < total then
      match ((unprocessedRows db).drop offset).take bs with
      | [] => (cs, db, acc)
      | b =>
        match process_batch flFor cs db b with
        | (cs1, db1, (p, c, s)) =>
          drain_loop flFor bs total fuel (offset + bs) cs1 db1
            (acc.1 + p, acc.2.1 + c, acc.2.2 + s)
    else (cs, db, acc)

/-- `ActorsTitlesController.populate_actors_titles_table_from_temp`
(lines 185–257): query the unprocessed count once; if zero, return
immediately; otherwise build both caches and run the batch loop from
offset 0. -/
def populate_actors_titles_table_from_temp (flFor : Nat → Faults) (bs : Nat)
    (cs : CtrlState) (db : DBState) : CtrlState × DBState × (Nat × Nat × Nat) :=
  let total := countUnprocessed db
  if total = 0 then (cs, db, (0, 0, 0))
  else
    let cs1 := build_title_cache db (build_people_cache db cs)
    drain_loop flFor bs total (total + 1) 0 cs1 db (0, 0, 0)

/-! ## The stagers -/

/-- A row of `temp_netflix_titles` (the columns the stagers read; a SQL NULL
field is `none`). -/
structure NetflixSourceRow where
  show_id : Str
  director : Option Str
  cast : Option Str
deriving DecidableEq, Repr

/-- `ActorsTitlesController._extract_actor_records` (lines 93–126): the SQL
query keeps rows whose `"cast"` is non-NULL, non-empty, non-blank and not
exactly `'unknown'`; each kept row is split on commas and every stripped
token that is truthy and not `'unknown'` (case-insensitively) becomes one
`(show_id, actor_name)` candidate. -/
def extract_actor_records (rows : List NetflixSourceRow) : List (Str × Str) :=
  (rows.filter fun r =>
    match r.cast with
    | none => false
    | some c => !(c = [] : Bool) && !(sqlTrim c = [] : Bool) && !(c = "unknown".toList : Bool)
  ).flatMap fun r =>
    (pySplitComma (r.cast.getD [])).filterMap fun tok =>
      let a := pyStrip tok
      if !(a = [] : Bool) && !(pyLower a = "unknown".toList : Bool) then some (r.show_id, a)
      else none

/-- `ActorsTitlesController.create_temp_actors_titles_table` (lines 48–137):
`DROP TABLE IF EXISTS` + `CREATE TABLE` + insert — the previous staging table
contents are discarded wholesale, and the SERIAL `id` numbers the fresh rows
from 1. -/
def create_temp_actors_titles_table (rows : List NetflixSourceRow)
    (oldTable : List TempActorTitleRow) : List TempActorTitleRow :=
  let _ := oldTable
  (extract_actor_records rows).enum.map fun ic => ⟨ic.1 + 1, ic.2.1, ic.2.2, false⟩

/-- Modelled from the spec's words (§4.1 Contract), for comparison with
`extract_actor_records`: one candidate per non-empty, non-`"unknown"`
comma-separated token of each row's multi-valued field, trimmed of
surrounding whitespace. -/
def stagerSpecCandidates (rows : List NetflixSourceRow) : List (Str × Str) :=
  rows.flatMap fun r =>
    match r.cast with
    | none => []
    | some c =>
      (pySplitComma c).filterMap fun tok =>
        let a := pyStrip tok
        if !(a = [] : Bool) && !(pyLower a = "unknown".toList : Bool) then some (r.show_id, a)
        else none

/-- The `people_list` accumulation of
`PeopleController.create_temp_people_table` (people_controller.py,
lines 21–78): for each record, if the whole `director` (resp. `cast`) field
is truthy and not exactly `"unknown"`, append every comma-token stripped —
empty and `"unknown"` tokens included. -/
def people_raw_tokens (records : List NetflixSourceRow) : List Str :=
  records.flatMap fun record =>
    (match record.director with
     | none => []
     | some d =>
       if !(d = [] : Bool) && !(d = "unknown".toList : Bool) then (pySplitComma d).map pyStrip
       else []) ++
    (match record.cast with
     | none => []
     | some c =>
       if !(c = [] : Bool) && !(c = "unknown".toList : Bool) then (pySplitComma c).map pyStrip
       else [])

/-- Python `sorted` order on strings: codepoint-lexicographic `≤`. -/
def strLe : Str → Str → Bool
  | [], _ => true
  | _ :: _, [] => false
  | x :: xs, y :: ys => if x = y then strLe xs ys else decide (x < y)

/-- Insertion sort by `strLe` (extensionally, Python's `list.sort()` on the
duplicate-free name list). -/
def insertSorted (x : Str) : List Str → List Str
  | [] => [x]
  | y :: ys => if strLe x y then x :: y :: ys else y :: insertSorted x ys

/-- Sort a list of strings. -/
def sortStrs : List Str → List Str
  | [] => []
  | x :: xs => insertSorted x (sortStrs xs)

/-- `PeopleController.create_temp_people_table`: collect the raw tokens,
`list(set(...))` + `.sort()` (deduplicate, then sort), then store one
`(name, processed=False)` row per distinct name, replacing the whole
`temp_people` table (`if_exists="replace"`). -/
def create_temp_people_table (records : List NetflixSourceRow) : List (Str × Bool) :=
  (sortStrs (people_raw_tokens records).dedup).map fun n => (n, false)

/-! ## Resolver runs (for the uniqueness claim)

An execution of the Resolver: a sequence of `_find_actor_id` calls, possibly
spanning several controller lifetimes (`newRun` models constructing a fresh
controller and letting `populate_actors_titles_table_from_temp` rebuild the
caches from the current database). -/

/-- One resolver-level event. -/
inductive RunEvent where
  | resolve (actor_name : Str) (fl : Faults)
  | newRun
deriving Repr

/-- Run a sequence of resolver events. -/
def runEvents : List RunEvent → CtrlState × DBState → CtrlState × DBState
  | [], s => s
  | RunEvent.resolve v fl :: es, (cs, db) =>
    match find_actor_id fl cs db v with
    | (_, cs', db') => runEvents es (cs', db')
  | RunEvent.newRun :: es, (_, db) =>
    runEvents es (build_title_cache db (build_people_cache db ⟨[], []⟩), db)

/-- The natural key of a person row: its full name, lowered and stripped —
the normalization `_find_actor_id` applies to raw values (the middle name is
ignored, exactly as `_build_people_cache` ignores it). -/
def personKey (p : PersonRow) : Str :=
  pyStrip (pyLower (p.first_name ++ ' ' :: p.last_name.getD []))

/-- Well-formed token lists: what `str.split()` produces — every token
non-empty and whitespace-free. -/
def wfTokens (ps : List Str) : Prop :=
  ∀ t ∈ ps, t ≠ [] ∧ ∀ c ∈ t, c.isWhitespace = false

/-- Rows shaped like the rows `_create_missing_actor` inserts: a first name
that is the head token and a last name that joins the remaining tokens. -/
def TokenShapedRow (p : PersonRow) : Prop :=
  ∃ ps : List Str, ps ≠ [] ∧ wfTokens ps ∧
    p.first_name = ps.headD [] ∧ p.last_name = tailJoin ps

/-- A sequence of `_find_actor_id` calls within one run (one controller
instance, no cache rebuild). -/
def resolveSeq : List (Str × Faults) → CtrlState × DBState → CtrlState × DBState
  | [], s => s
  | (v, fl) :: rest, (cs, db) =>
    match find_actor_id fl cs db v with
    | (_, cs', db') => resolveSeq rest (cs', db')

/-- The cache resolves `v` to `id`: either the full normalized key is cached
with `id`, or it is absent and the first-token fallback key is cached with
`id`.  `_find_actor_id` returns `id` without side effects from any such
cache. -/
def ResolvedTo (c : Cache) (v : Str) (id : Nat) : Prop :=
  match cacheGet c (pyStrip (pyLower v)) with
  | some j => j = id
  | none => ∃ w ws, pySplitWS (pyStrip (pyLower v)) = w :: ws ∧ cacheGet c w = some id

/-- Every staging row with this id is marked processed. -/
def Marked (db : DBState) (rid : Nat) : Prop :=
  ∀ t ∈ db.temp_actors_titles, t.id = rid → t.processed = true

/-- Staging rows evolve only by flipping `processed` to true: every row of
the later state corresponds to a row of the earlier state with the same id,
and marks are never lost. -/
def TempRel (db db' : DBState) : Prop :=
  ∀ t' ∈ db'.temp_actors_titles,
    ∃ t ∈ db.temp_actors_titles, t'.id = t.id ∧ (t.processed = true → t'.processed = true)

/-- The §8 scenario staging state: candidates
`[("t1","Anna Lee"), ("t1","Anna Lee"), ("t2","Bob Chen")]`, Title rows for
`t1` and `t2`, no people, actors or relationships. -/
def scenarioDB : DBState :=
  ⟨[⟨1, "t1".toList, "Anna Lee".toList, false⟩,
    ⟨2, "t1".toList, "Anna Lee".toList, false⟩,
    ⟨3, "t2".toList, "Bob Chen".toList, false⟩],
   [], [], [⟨1, "t1".toList⟩, ⟨2, "t2".toList⟩], [], 1⟩

/-- One drain of the scenario staging table from a fresh controller with no
failures. -/
def drainScenario (bs : Nat) : CtrlState × DBState × (Nat × Nat × Nat) :=
  populate_actors_titles_table_from_temp (fun _ => noFaults) bs ⟨[], []⟩ scenarioDB

/-- Two unprocessed candidates against one existing title — the smallest
input on which the offset pagination skips work. -/
def pairDB : DBState :=
  ⟨[⟨1, "t1".toList, "Ann".toList, false⟩, ⟨2, "t1".toList, "Bob".toList, false⟩],
   [], [], [⟨1, "t1".toList⟩], [], 1⟩

/-- An empty database (fresh schema, person sequence at 1). -/
def emptyDB : DBState := ⟨[], [], [], [], [], 1⟩

/-! ## Helper lemmas: characters -/

theorem char_toNat_ofNat_of_valid {n : Nat} (h : n.isValidChar) :
    (Char.ofNat n).toNat = n := by
  rw [Char.ofNat, dif_pos h]; rfl

theorem char_eq_iff_toNat {c d : Char} : c = d ↔ c.toNat = d.toNat := by
  constructor
  · rintro rfl; rfl
  · intro h
    apply Char.eq_of_val_eq
    exact UInt32.toNat.inj h

theorem char_isWhitespace_eq (c : Char) :
    c.isWhitespace = (c.toNat = 32 || c.toNat = 9 || c.toNat = 13 || c.toNat = 10) := by
  simp only [Char.isWhitespace, char_eq_iff_toNat]
  rfl

theorem toLower_isWhitespace (c : Char) :
    (Char.toLower c).isWhitespace = c.isWhitespace := by
  unfold Char.toLower
  by_cases h : c.toNat ≥ 65 ∧ c.toNat ≤ 90
  · simp only [if_pos h]
    obtain ⟨h1, h2⟩ := h
    have hv : (c.toNat + 32).isValidChar := Or.inl (by omega)
    rw [char_isWhitespace_eq, char_isWhitespace_eq c, char_toNat_ofNat_of_valid hv]
    rw [Bool.eq_iff_iff]
    simp only [Bool.or_eq_true, decide_eq_true_eq]
    omega
  · simp only [if_neg h]

theorem toLower_space : Char.toLower ' ' = ' ' := by decide

/-! ## Helper lemmas: strip, split, join -/

theorem dropWhile_ws_eq_self {v : Str} (h : ∀ c ∈ v, c.isWhitespace = false) :
    v.dropWhile Char.isWhitespace = v := by
  cases v with
  | nil => rfl
  | cons c cs =>
    rw [List.dropWhile_cons_of_neg]
    simp [h c (List.mem_cons_self c cs)]

theorem pyStrip_nil : pyStrip [] = [] := rfl

theorem pyStrip_eq_self {s : Str}
    (h1 : ∀ c, s.head? = some c → c.isWhitespace = false)
    (h2 : ∀ c, s.getLast? = some c → c.isWhitespace = false) :
    pyStrip s = s := by
  cases s with
  | nil => rfl
  | cons a t =>
    unfold pyStrip
    rw [List.dropWhile_cons_of_neg (by simp [h1 a rfl])]
    have hrev : (a :: t).reverse ≠ [] := by simp
    obtain ⟨b, u, hbu⟩ := List.exists_cons_of_ne_nil hrev
    rw [hbu, List.dropWhile_cons_of_neg, ← hbu, List.reverse_reverse]
    have hb : (a :: t).getLast? = some b := by
      rw [← List.head?_reverse, hbu]; rfl
    simp [h2 b hb]

theorem pyStrip_append_space {u : Str} (hne : u ≠ [])
    (h : ∀ c ∈ u, c.isWhitespace = false) : pyStrip (u ++ [' ']) = u := by
  unfold pyStrip
  obtain ⟨a, t, rfl⟩ := List.exists_cons_of_ne_nil hne
  rw [List.cons_append, List.dropWhile_cons_of_neg
    (by simp [h a (List.mem_cons_self a t)])]
  rw [show (a :: (t ++ [' '])).reverse = ' ' :: (t.reverse ++ [a]) by simp]
  rw [List.dropWhile_cons_of_pos (by decide)]
  have hall : ∀ c ∈ t.reverse ++ [a], c.isWhitespace = false := by
    intro c hc
    apply h
    rcases List.mem_append.mp hc with h' | h'
    · exact List.mem_cons_of_mem a (List.mem_reverse.mp h')
    · simp only [List.mem_singleton] at h'
      subst h'
      exact List.mem_cons_self c t
  rw [dropWhile_ws_eq_self hall]
  simp

theorem pySplitWSAux_tokens (s : Str) :
    ∀ acc, (∀ c ∈ acc, c.isWhitespace = false) →
    ∀ t ∈ pySplitWSAux s acc, t ≠ [] ∧ ∀ c ∈ t, c.isWhitespace = false := by
  induction s with
  | nil =>
    intro acc hacc t ht
    unfold pySplitWSAux at ht
    by_cases ha : acc = []
    · simp [ha] at ht
    · rw [if_neg ha] at ht
      simp only [List.mem_singleton] at ht
      subst ht
      refine ⟨by simpa using ha, ?_⟩
      intro c hc
      exact hacc c (by simpa using hc)
  | cons c cs ih =>
    intro acc hacc t ht
    unfold pySplitWSAux at ht
    by_cases hws : c.isWhitespace
    · rw [if_pos hws] at ht
      by_cases ha : acc = []
      · rw [if_pos ha] at ht
        exact ih [] (by simp) t ht
      · rw [if_neg ha] at ht
        rcases List.mem_cons.mp ht with h | h
        · subst h
          refine ⟨by simpa using ha, ?_⟩
          intro x hx
          exact hacc x (by simpa using hx)
        · exact ih [] (by simp) t h
    · rw [if_neg hws] at ht
      refine ih (c :: acc) ?_ t ht
      intro x hx
      rcases List.mem_cons.mp hx with h | h
      · subst h; simpa using hws
      · exact hacc x h

theorem pySplitWS_tokens {s : Str} :
    ∀ t ∈ pySplitWS s, t ≠ [] ∧ ∀ c ∈ t, c.isWhitespace = false :=
  pySplitWSAux_tokens s [] (by simp)

theorem pySplitWSAux_all_nonws (s : Str) (hs : ∀ c ∈ s, c.isWhitespace = false) :
    ∀ acc, acc ≠ [] ∨ s ≠ [] → pySplitWSAux s acc = [acc.reverse ++ s] := by
  induction s with
  | nil =>
    intro acc hne
    rcases hne with h | h
    · unfold pySplitWSAux
      rw [if_neg (by simpa using h)]
      simp
    · exact absurd rfl h
  | cons c cs ih =>
    intro acc _
    unfold pySplitWSAux
    rw [if_neg (by simp [hs c (List.mem_cons_self c cs)])]
    rw [ih (fun x hx => hs x (List.mem_cons_of_mem c hx)) (c :: acc) (Or.inl (by simp))]
    simp

theorem pySplitWS_all_nonws {s : Str} (hne : s ≠ [])
    (hs : ∀ c ∈ s, c.isWhitespace = false) : pySplitWS s = [s] := by
  unfold pySplitWS
  rw [pySplitWSAux_all_nonws s hs [] (Or.inr hne)]
  simp


theorem pyJoinSpace_ne_nil {ps : List Str} (hwf : wfTokens ps) (hne : ps ≠ []) :
    pyJoinSpace ps ≠ [] := by
  match ps with
  | [t] => exact (hwf t (by simp)).1
  | t :: t' :: ts =>
    show t ++ ' ' :: pyJoinSpace (t' :: ts) ≠ []
    simp

theorem pyJoinSpace_head? {t : Str} {ts : List Str} (hne : t ≠ []) :
    (pyJoinSpace (t :: ts)).head? = t.head? := by
  match ts with
  | [] => rfl
  | t' :: ts' =>
    show (t ++ ' ' :: pyJoinSpace (t' :: ts')).head? = t.head?
    obtain ⟨a, u, rfl⟩ := List.exists_cons_of_ne_nil hne
    rfl

theorem pyJoinSpace_getLast?_nonws {ps : List Str} (hwf : wfTokens ps) (hne : ps ≠ []) :
    ∃ c, (pyJoinSpace ps).getLast? = some c ∧ c.isWhitespace = false := by
  match ps with
  | [t] =>
    obtain ⟨ht, hc⟩ := hwf t (by simp)
    obtain ⟨a, u, rfl⟩ := List.exists_cons_of_ne_nil ht
    refine ⟨(a :: u).getLast (by simp), ?_, ?_⟩
    · exact List.getLast?_eq_getLast _ _
    · exact hc _ (List.getLast_mem _)
  | t :: t' :: ts =>
    have hwf' : wfTokens (t' :: ts) := fun x hx => hwf x (List.mem_cons_of_mem t hx)
    obtain ⟨c, hgl, hcw⟩ := pyJoinSpace_getLast?_nonws hwf' (by simp)
    refine ⟨c, ?_, hcw⟩
    show (t ++ ' ' :: pyJoinSpace (t' :: ts)).getLast? = some c
    rw [List.getLast?_append_of_ne_nil _ (by simp)]
    rw [List.getLast?_cons, ← hgl]
    have : pyJoinSpace (t' :: ts) ≠ [] := pyJoinSpace_ne_nil hwf' (by simp)
    obtain ⟨a, u, hau⟩ := List.exists_cons_of_ne_nil this
    rw [hau]
    simp [List.getLast?_cons]

theorem sep_append_inj {a : Str} (ha : ∀ c ∈ a, c.isWhitespace = false) :
    ∀ {c : Str}, (∀ x ∈ c, x.isWhitespace = false) →
    ∀ {b d : Str}, a ++ ' ' :: b = c ++ ' ' :: d → a = c ∧ b = d := by
  induction a with
  | nil =>
    intro c hc b d h
    cases c with
    | nil => simpa using h
    | cons x xs =>
      exfalso
      simp only [List.nil_append, List.cons_append, List.cons.injEq] at h
      have := hc x (by simp)
      rw [← h.1] at this
      simp at this
  | cons y ys ih =>
    intro c hc b d h
    cases c with
    | nil =>
      exfalso
      simp only [List.cons_append, List.nil_append, List.cons.injEq] at h
      have := ha y (by simp)
      rw [h.1] at this
      simp at this
    | cons x xs =>
      simp only [List.cons_append, List.cons.injEq] at h
      obtain ⟨rfl, h2⟩ := h
      have ih' := ih (fun z hz => ha z (List.mem_cons_of_mem _ hz))
        (fun z hz => hc z (List.mem_cons_of_mem _ hz)) h2
      exact ⟨by rw [ih'.1], ih'.2⟩

theorem pyJoinSpace_inj : ∀ {ps qs : List Str}, wfTokens ps → wfTokens qs →
    pyJoinSpace ps = pyJoinSpace qs → ps = qs := by
  intro ps
  induction ps with
  | nil =>
    intro qs _ hq h
    cases qs with
    | nil => rfl
    | cons u us =>
      exfalso
      have : pyJoinSpace (u :: us) ≠ [] := pyJoinSpace_ne_nil hq (by simp)
      exact this (h.symm)
  | cons t ts ih =>
    intro qs hp hq h
    cases qs with
    | nil =>
      exfalso
      have : pyJoinSpace (t :: ts) ≠ [] := pyJoinSpace_ne_nil hp (by simp)
      exact this h
    | cons u us =>
      cases ts with
      | nil =>
        cases us with
        | nil => simpa using h
        | cons u' us' =>
          exfalso
          have ht := (hp t (by simp)).2
          have : (' ' : Char) ∈ t := by
            rw [show pyJoinSpace [t] = t from rfl] at h
            rw [h]
            show ' ' ∈ u ++ ' ' :: pyJoinSpace (u' :: us')
            simp
          have := ht ' ' this
          simp at this
      | cons t' ts' =>
        cases us with
        | nil =>
          exfalso
          have hu := (hq u (by simp)).2
          have : (' ' : Char) ∈ u := by
            rw [show pyJoinSpace [u] = u from rfl] at h
            rw [← h]
            show ' ' ∈ t ++ ' ' :: pyJoinSpace (t' :: ts')
            simp
          have := hu ' ' this
          simp at this
        | cons u' us' =>
          have h' : t ++ ' ' :: pyJoinSpace (t' :: ts') = u ++ ' ' :: pyJoinSpace (u' :: us') := h
          obtain ⟨h1, h2⟩ := sep_append_inj ((hp t (by simp)).2) ((hq u (by simp)).2) h'
          have := ih (fun x hx => hp x (List.mem_cons_of_mem _ hx))
            (fun x hx => hq x (List.mem_cons_of_mem _ hx)) h2
          rw [h1, this]

theorem pyLower_append (a b : Str) : pyLower (a ++ b) = pyLower a ++ pyLower b :=
  List.map_append _ a b

theorem pyLower_join (ps : List Str) :
    pyLower (pyJoinSpace ps) = pyJoinSpace (ps.map pyLower) := by
  match ps with
  | [] => rfl
  | [t] => rfl
  | t :: t' :: ts =>
    show pyLower (t ++ ' ' :: pyJoinSpace (t' :: ts)) = _
    rw [pyLower_append]
    show pyLower t ++ Char.toLower ' ' :: pyLower (pyJoinSpace (t' :: ts)) = _
    rw [pyLower_join (t' :: ts)]
    rfl

theorem wfTokens_map_lower {ps : List Str} (h : wfTokens ps) :
    wfTokens (ps.map pyLower) := by
  intro t ht
  obtain ⟨u, hu, rfl⟩ := List.mem_map.mp ht
  obtain ⟨h1, h2⟩ := h u hu
  constructor
  · simpa [pyLower] using h1
  · intro c hc
    obtain ⟨x, hx, rfl⟩ := List.mem_map.mp hc
    rw [toLower_isWhitespace]
    exact h2 x hx

/-! ## Helper lemmas: substring matching and caches -/

theorem strStartsWith_refl (s : Str) : strStartsWith s s = true := by
  induction s with
  | nil => rfl
  | cons c cs ih =>
    show ((c = c : Bool) && strStartsWith cs cs) = true
    simp [ih]

theorem strContainsSub_self (s : Str) : strContainsSub s s = true := by
  unfold strContainsSub
  rw [if_pos (strStartsWith_refl s)]

theorem sqlIlike_of_lower_eq {a b : Str} (h : pyLower a = pyLower b) :
    sqlIlike a b = true := by
  unfold sqlIlike
  rw [h]
  exact strContainsSub_self _

theorem cacheGet_cacheSet (c : Cache) (k k' : Str) (v : Nat) :
    cacheGet (cacheSet c k v) k' = if k = k' then some v else cacheGet c k' := rfl

theorem shapeKey_eq_lower_join {ps : List Str} (hne : ps ≠ []) (hwf : wfTokens ps) :
    pyStrip (pyLower (ps.headD [] ++ ' ' :: (tailJoin ps).getD [])) =
      pyLower (pyJoinSpace ps) := by
  match ps with
  | [t] =>
    obtain ⟨ht, hcw⟩ := hwf t (by simp)
    show pyStrip (pyLower (t ++ ' ' :: [])) = pyLower (pyJoinSpace [t])
    have : pyLower (t ++ [' ']) = pyLower t ++ [' '] := by
      rw [pyLower_append]; rfl
    rw [show t ++ ' ' :: [] = t ++ [' '] from rfl, this]
    rw [pyStrip_append_space (by simpa [pyLower] using ht)]
    · rfl
    · intro c hc
      obtain ⟨x, hx, rfl⟩ := List.mem_map.mp hc
      rw [toLower_isWhitespace]
      exact hcw x hx
  | t :: t' :: ts =>
    obtain ⟨ht, hcw⟩ := hwf t (by simp)
    have hwf' : wfTokens (t' :: ts) := fun x hx => hwf x (List.mem_cons_of_mem t hx)
    show pyStrip (pyLower (t ++ ' ' :: pyJoinSpace (t' :: ts))) = _
    have hX : t ++ ' ' :: pyJoinSpace (t' :: ts) = pyJoinSpace (t :: t' :: ts) := rfl
    rw [hX]
    apply pyStrip_eq_self
    · intro c hc
      unfold pyLower at hc
      rw [List.head?_map] at hc
      rw [pyJoinSpace_head? ht] at hc
      obtain ⟨a, u, rfl⟩ := List.exists_cons_of_ne_nil ht
      simp only [List.head?_cons, Option.map_some] at hc
      rw [← Option.some.inj hc, toLower_isWhitespace]
      exact hcw a (by simp)
    · intro c hc
      obtain ⟨d, hgl, hdw⟩ := pyJoinSpace_getLast?_nonws hwf (by simp)
      unfold pyLower at hc
      rw [List.getLast?_map, hgl] at hc
      simp at hc
      rw [← hc, toLower_isWhitespace]
      exact hdw

theorem personKey_of_tokenShaped {q : PersonRow} {qs : List Str} (hne : qs ≠ [])
    (hwf : wfTokens qs) (hf : q.first_name = qs.headD []) (hl : q.last_name = tailJoin qs) :
    personKey q = pyLower (pyJoinSpace qs) := by
  unfold personKey
  rw [hf, hl]
  exact shapeKey_eq_lower_join hne hwf

theorem name_parts_ne_nil (v : Str) : name_parts v ≠ [] := by
  unfold name_parts
  match h : pySplitWS (pyStrip v) with
  | [] => simp
  | p :: ps => simp

theorem name_parts_wf (v : Str) : wfTokens (name_parts v) := by
  unfold name_parts
  cases h : pySplitWS (pyStrip v) with
  | nil =>
    intro t ht
    simp only [List.mem_singleton] at ht
    subst ht
    exact ⟨by decide, by decide⟩
  | cons p ps =>
    intro t ht
    apply pySplitWS_tokens t
    rw [h]
    exact ht

theorem getByNameMatches_of_key_eq {q : PersonRow} {qs ps : List Str}
    (hqne : qs ≠ []) (hqwf : wfTokens qs)
    (hf : q.first_name = qs.headD []) (hl : q.last_name = tailJoin qs)
    (hpne : ps ≠ []) (hpwf : wfTokens ps)
    (hkey : personKey q = pyLower (pyJoinSpace ps)) :
    getByNameMatches (ps.headD []) none (tailJoin ps) q = true := by
  have hq : personKey q = pyLower (pyJoinSpace qs) :=
    personKey_of_tokenShaped hqne hqwf hf hl
  have hjoin : pyJoinSpace (qs.map pyLower) = pyJoinSpace (ps.map pyLower) := by
    rw [← pyLower_join, ← pyLower_join, ← hq, hkey]
  have hE : qs.map pyLower = ps.map pyLower :=
    pyJoinSpace_inj (wfTokens_map_lower hqwf) (wfTokens_map_lower hpwf) hjoin
  obtain ⟨q0, qs', rfl⟩ := List.exists_cons_of_ne_nil hqne
  obtain ⟨p0, ps', rfl⟩ := List.exists_cons_of_ne_nil hpne
  simp only [List.map_cons, List.cons.injEq] at hE
  obtain ⟨hE0, hEt⟩ := hE
  unfold getByNameMatches
  simp only [List.headD_cons]
  have hp0 : p0 ≠ [] := (hpwf p0 (by simp)).1
  rw [if_neg hp0]
  have c1 : sqlIlike q.first_name p0 = true := by
    apply sqlIlike_of_lower_eq
    rw [hf]
    simpa using hE0
  rw [c1]
  have c2 : (if optTruthy none then ilikeCol q.middle_name ((none : Option Str).getD []) else true) = true := rfl
  rw [c2]
  match hps' : ps' with
  | [] =>
    have : qs' = [] := by
      simpa using hEt
    subst this
    simp [tailJoin, optTruthy]
  | p1 :: ps'' =>
    have hqs' : qs' ≠ [] := by
      intro hq'
      rw [hq'] at hEt
      simp at hEt
    obtain ⟨q1, qs'', rfl⟩ := List.exists_cons_of_ne_nil hqs'
    have hwfp' : wfTokens (p1 :: ps'') := fun x hx => hpwf x (List.mem_cons_of_mem _ hx)
    have hwfq' : wfTokens (q1 :: qs'') := fun x hx => hqwf x (List.mem_cons_of_mem _ hx)
    have hTJp : tailJoin (p0 :: p1 :: ps'') = some (pyJoinSpace (p1 :: ps'')) := rfl
    have hTJq : tailJoin (q0 :: q1 :: qs'') = some (pyJoinSpace (q1 :: qs'')) := rfl
    rw [hTJp]
    have hjp : pyJoinSpace (p1 :: ps'') ≠ [] := pyJoinSpace_ne_nil hwfp' (by simp)
    have hot : optTruthy (some (pyJoinSpace (p1 :: ps''))) = true := by
      unfold optTruthy
      simpa using hjp
    rw [hot, if_pos rfl]
    have c3 : ilikeCol q.last_name (pyJoinSpace (p1 :: ps'')) = true := by
      rw [hl, hTJq]
      unfold ilikeCol
      apply sqlIlike_of_lower_eq
      rw [pyLower_join, pyLower_join]
      rw [hEt]
    simp only [Option.getD_some]
    rw [c3]
    rfl

theorem ensure_actor_row_people (fl : Faults) (cs : CtrlState) (db : DBState)
    (pid : Nat) (v : Str) : (ensure_actor_row fl cs db pid v).2.2.people = db.people := by
  unfold ensure_actor_row
  split
  · rfl
  · split
    · rfl
    · split
      · rfl
      · rfl

theorem create_missing_actor_people (fl : Faults) (cs : CtrlState) (db : DBState) (v : Str) :
    (create_missing_actor fl cs db v).2.2.people = db.people ∨
    ((create_missing_actor fl cs db v).2.2.people =
        db.people ++
          [⟨db.next_person_id, (name_parts v).headD [], none, tailJoin (name_parts v)⟩] ∧
      people_get_by_name db ((name_parts v).headD []) none (tailJoin (name_parts v)) = []) := by
  unfold create_missing_actor
  split
  · exact Or.inl rfl
  · split
    · rename_i p ps hmatch
      exact Or.inl (ensure_actor_row_people _ _ _ _ _)
    · rename_i hmatch
      split
      · exact Or.inl rfl
      · refine Or.inr ⟨?_, hmatch⟩
        rw [ensure_actor_row_people]

theorem find_actor_id_people (fl : Faults) (cs : CtrlState) (db : DBState) (v : Str) :
    (find_actor_id fl cs db v).2.2.people = db.people ∨
    ((find_actor_id fl cs db v).2.2.people =
        db.people ++
          [⟨db.next_person_id, (name_parts v).headD [], none, tailJoin (name_parts v)⟩] ∧
      people_get_by_name db ((name_parts v).headD []) none (tailJoin (name_parts v)) = []) := by
  simp only [find_actor_id]
  split
  · exact Or.inl rfl
  · split
    · exact create_missing_actor_people fl cs db v
    · split
      · exact Or.inl rfl
      · exact create_missing_actor_people fl cs db v

theorem name_parts_headD_ne_nil (v : Str) : (name_parts v).headD [] ≠ [] := by
  obtain ⟨t, ts, h⟩ := List.exists_cons_of_ne_nil (name_parts_ne_nil v)
  rw [h]
  exact (name_parts_wf v t (by rw [h]; simp)).1

theorem people_get_by_name_nil_no_match {db : DBState} {f : Str} {l : Option Str}
    (hnil : people_get_by_name db f none l = []) (hf : f ≠ []) :
    ∀ q ∈ db.people, getByNameMatches f none l q = false := by
  unfold people_get_by_name at hnil
  rw [if_neg (by simp [hf])] at hnil
  intro q hq
  rcases List.filter_eq_nil_iff.mp hnil q hq with h
  simpa using h

theorem newRow_tokenShaped (db : DBState) (v : Str) :
    TokenShapedRow ⟨db.next_person_id, (name_parts v).headD [], none, tailJoin (name_parts v)⟩ :=
  ⟨name_parts v, name_parts_ne_nil v, name_parts_wf v, rfl, rfl⟩

theorem newRow_personKey (db : DBState) (v : Str) :
    personKey ⟨db.next_person_id, (name_parts v).headD [], none, tailJoin (name_parts v)⟩ =
      pyLower (pyJoinSpace (name_parts v)) :=
  personKey_of_tokenShaped (name_parts_ne_nil v) (name_parts_wf v) rfl rfl

theorem runEvents_new_people : ∀ (events : List RunEvent) (cs : CtrlState) (db : DBState),
    ∃ new : List PersonRow,
      (runEvents events (cs, db)).2.people = db.people ++ new ∧
      (∀ p ∈ new, TokenShapedRow p) ∧
      (∀ p ∈ new, ∀ q ∈ db.people, TokenShapedRow q → personKey q ≠ personKey p) ∧
      new.Pairwise (fun p q => personKey p ≠ personKey q) := by
  intro events
  induction events with
  | nil =>
    intro cs db
    exact ⟨[], by simp [runEvents], by simp, by simp, List.Pairwise.nil⟩
  | cons e es ih =>
    intro cs db
    cases e with
    | newRun =>
      have hrun : runEvents (RunEvent.newRun :: es) (cs, db) =
          runEvents es (build_title_cache db (build_people_cache db ⟨[], []⟩), db) := rfl
      rw [hrun]
      exact ih _ db
    | resolve v fl =>
      have hrun : runEvents (RunEvent.resolve v fl :: es) (cs, db) =
          runEvents es ((find_actor_id fl cs db v).2.1, (find_actor_id fl cs db v).2.2) := by
        show (match find_actor_id fl cs db v with
              | (_, cs', db') => runEvents es (cs', db')) = _
        rcases find_actor_id fl cs db v with ⟨a, b, c⟩
        rfl
      rw [hrun]
      obtain ⟨new', h1, h2, h3, h4⟩ :=
        ih (find_actor_id fl cs db v).2.1 (find_actor_id fl cs db v).2.2
      rcases find_actor_id_people fl cs db v with hsame | ⟨hext, hguard⟩
      · refine ⟨new', ?_, h2, ?_, h4⟩
        · rw [h1, hsame]
        · intro p hp q hq hqt
          exact h3 p hp q (by rw [hsame]; exact hq) hqt
      · set row : PersonRow :=
          ⟨db.next_person_id, (name_parts v).headD [], none, tailJoin (name_parts v)⟩ with hrow
        refine ⟨row :: new', ?_, ?_, ?_, ?_⟩
        · rw [h1, hext]
          simp
        · intro p hp
          rcases List.mem_cons.mp hp with h | h
          · rw [h]; exact newRow_tokenShaped db v
          · exact h2 p h
        · intro p hp q hq hqt
          rcases List.mem_cons.mp hp with h | h
          · rw [h, hrow]
            intro hkeq
            have hkey : personKey q = pyLower (pyJoinSpace (name_parts v)) := by
              rw [hkeq, newRow_personKey]
            obtain ⟨qs, hqne, hqwf, hqf, hql⟩ := hqt
            have hmq := getByNameMatches_of_key_eq hqne hqwf hqf hql
              (name_parts_ne_nil v) (name_parts_wf v) hkey
            have := people_get_by_name_nil_no_match hguard (name_parts_headD_ne_nil v) q hq
            rw [hmq] at this
            exact Bool.true_eq_false.mp this
          · exact h3 p h q (by rw [hext]; exact List.mem_append_left _ hq) hqt
        · rw [List.pairwise_cons]
          refine ⟨?_, h4⟩
          intro p hp
          exact h3 p hp row (by rw [hext]; simp) (newRow_tokenShaped db v)

/-! ## Helper lemmas: the cache is write-once within a run -/

theorem cacheGet_update_cache_full (cs : CtrlState) (v : Str) (aid : Nat) :
    cacheGet (update_cache_for_actor cs v aid).people_cache (pyStrip (pyLower v)) =
      some aid := by
  simp only [update_cache_for_actor]
  split
  · rw [cacheGet_cacheSet, if_pos rfl]
  · rename_i w ws hsplit
    rw [cacheGet_cacheSet]
    split
    · rfl
    · rw [cacheGet_cacheSet, if_pos rfl]

theorem cacheGet_update_cache_other (cs : CtrlState) (v : Str) (aid : Nat) {k : Str}
    (hk : pyStrip (pyLower v) ≠ k)
    (hw : ∀ w ws, pySplitWS (pyStrip (pyLower v)) = w :: ws → w ≠ k) :
    cacheGet (update_cache_for_actor cs v aid).people_cache k =
      cacheGet cs.people_cache k := by
  simp only [update_cache_for_actor]
  split
  · rw [cacheGet_cacheSet, if_neg hk]
  · rename_i w ws hsplit
    rw [cacheGet_cacheSet, if_neg (hw w ws hsplit), cacheGet_cacheSet, if_neg hk]

theorem ensure_actor_row_cache_cases (fl : Faults) (cs : CtrlState) (db : DBState)
    (pid : Nat) (v : Str) :
    ((ensure_actor_row fl cs db pid v).2.1 = cs ∧ (ensure_actor_row fl cs db pid v).1 = none) ∨
    ((ensure_actor_row fl cs db pid v).2.1 = update_cache_for_actor cs v pid ∧
      (ensure_actor_row fl cs db pid v).1 = some pid) := by
  unfold ensure_actor_row
  split
  · exact Or.inl ⟨rfl, rfl⟩
  · split
    · exact Or.inr ⟨rfl, rfl⟩
    · split
      · exact Or.inl ⟨rfl, rfl⟩
      · exact Or.inr ⟨rfl, rfl⟩

theorem create_missing_actor_cache_cases (fl : Faults) (cs : CtrlState) (db : DBState)
    (v : Str) :
    ((create_missing_actor fl cs db v).2.1 = cs ∧ (create_missing_actor fl cs db v).1 = none) ∨
    ∃ aid, (create_missing_actor fl cs db v).2.1 = update_cache_for_actor cs v aid ∧
      (create_missing_actor fl cs db v).1 = some aid := by
  unfold create_missing_actor
  split
  · exact Or.inl ⟨rfl, rfl⟩
  · split
    · rename_i p ps hmatch
      rcases ensure_actor_row_cache_cases fl cs db p.person_id v with ⟨h1, h2⟩ | ⟨h1, h2⟩
      · exact Or.inl ⟨h1, h2⟩
      · exact Or.inr ⟨p.person_id, h1, h2⟩
    · split
      · exact Or.inl ⟨rfl, rfl⟩
      · rcases ensure_actor_row_cache_cases fl cs _ db.next_person_id v with ⟨h1, h2⟩ | ⟨h1, h2⟩
      
        · exact Or.inl ⟨h1, h2⟩
        · exact Or.inr ⟨db.next_person_id, h1, h2⟩

theorem find_actor_id_cache_cases (fl : Faults) (cs : CtrlState) (db : DBState) (v : Str) :
    (find_actor_id fl cs db v).2.1 = cs ∨
    ∃ aid, (find_actor_id fl cs db v).2.1 = update_cache_for_actor cs v aid ∧
      cacheGet cs.people_cache (pyStrip (pyLower v)) = none ∧
      (pySplitWS (pyStrip (pyLower v)) = [] ∨
        ∃ w ws, pySplitWS (pyStrip (pyLower v)) = w :: ws ∧
          cacheGet cs.people_cache w = none) := by
  simp only [find_actor_id]
  split
  · exact Or.inl rfl
  · rename_i hkey
    split
    · rename_i hsplit
      rcases create_missing_actor_cache_cases fl cs db v with ⟨h1, _⟩ | ⟨aid, h1, _⟩
      · exact Or.inl h1
      · exact Or.inr ⟨aid, h1, hkey, Or.inl hsplit⟩
    · rename_i w ws hsplit
      split
      · exact Or.inl rfl
      · rename_i hw
        rcases create_missing_actor_cache_cases fl cs db v with ⟨h1, _⟩ | ⟨aid, h1, _⟩
        · exact Or.inl h1
        · exact Or.inr ⟨aid, h1, hkey, Or.inr ⟨w, ws, hsplit, hw⟩⟩

theorem find_actor_id_cache_mono (fl : Faults) (cs : CtrlState) (db : DBState) (v : Str)
    {k : Str} {id : Nat} (h : cacheGet cs.people_cache k = some id) :
    cacheGet (find_actor_id fl cs db v).2.1.people_cache k = some id := by
  rcases find_actor_id_cache_cases fl cs db v with hsame | ⟨aid, hupd, hkey, hsp⟩
  · rw [hsame]; exact h
  · rw [hupd]
    rw [cacheGet_update_cache_other]
    · exact h
    · intro hkk
      rw [hkk] at hkey
      rw [h] at hkey
      exact Option.noConfusion hkey
    · intro w ws hsplit hkk
      rcases hsp with hnil | ⟨w0, ws0, hsplit0, hw0⟩
      · rw [hnil] at hsplit
        exact List.noConfusion hsplit
      · rw [hsplit0] at hsplit
        injection hsplit with hww _
        rw [hww, hkk] at hw0
        rw [h] at hw0
        exact Option.noConfusion hw0

theorem resolvedTo_congr {c : Cache} {v v' : Str} {id : Nat}
    (hk : pyStrip (pyLower v) = pyStrip (pyLower v')) (r : ResolvedTo c v id) :
    ResolvedTo c v' id := by
  unfold ResolvedTo at r ⊢
  rw [← hk]
  exact r

theorem find_step_preserves_resolvedTo {cs : CtrlState} {v : Str} {id : Nat}
    (r : ResolvedTo cs.people_cache v id) (fl : Faults) (db : DBState) (v' : Str) :
    ResolvedTo (find_actor_id fl cs db v').2.1.people_cache v id := by
  unfold ResolvedTo at r ⊢
  cases hkv : cacheGet cs.people_cache (pyStrip (pyLower v)) with
  | some j =>
    rw [hkv] at r
    rw [find_actor_id_cache_mono fl cs db v' hkv]
    exact r
  | none =>
    rw [hkv] at r
    obtain ⟨w, ws, hsplit, hwid⟩ := r
    have hw' : cacheGet (find_actor_id fl cs db v').2.1.people_cache w = some id :=
      find_actor_id_cache_mono fl cs db v' hwid
    have hkeynone : cacheGet (find_actor_id fl cs db v').2.1.people_cache
        (pyStrip (pyLower v)) = none := by
      rcases find_actor_id_cache_cases fl cs db v' with hsame | ⟨aid, hupd, hkey', hsp'⟩
      · rw [hsame]; exact hkv
      · rw [hupd]
        rw [cacheGet_update_cache_other]
        · exact hkv
        · intro hkk
          rw [hkk, hsplit] at hsp'
          rcases hsp' with hnil | ⟨w0, ws0, hsplit0, hw0⟩
          · exact List.noConfusion hnil
          · injection hsplit0 with hww _
            rw [← hww, hwid] at hw0
            exact Option.noConfusion hw0
        · intro w' ws' hsplit' hkk
          obtain ⟨hwne, hwnws⟩ := pySplitWS_tokens w' (by rw [hsplit']; simp)
          have hkeyws : ∀ c ∈ pyStrip (pyLower v), c.isWhitespace = false := by
            rw [← hkk]; exact hwnws
          have hkeyne : pyStrip (pyLower v) ≠ [] := by rw [← hkk]; exact hwne
          have hsglt : pySplitWS (pyStrip (pyLower v)) = [pyStrip (pyLower v)] :=
            pySplitWS_all_nonws hkeyne hkeyws
          rw [hsglt] at hsplit
          injection hsplit with hww _
          rw [← hww] at hwid
          rw [hkv] at hwid
          exact Option.noConfusion hwid
    rw [hkeynone]
    exact ⟨w, ws, hsplit, hw'⟩

theorem find_actor_id_of_resolvedTo {cs : CtrlState} {v : Str} {id : Nat}
    (r : ResolvedTo cs.people_cache v id) (fl : Faults) (db : DBState) :
    find_actor_id fl cs db v = (some id, cs, db) := by
  unfold ResolvedTo at r
  simp only [find_actor_id]
  cases hkv : cacheGet cs.people_cache (pyStrip (pyLower v)) with
  | some j =>
    rw [hkv] at r
    simp [hkv, r]
  | none =>
    rw [hkv] at r
    obtain ⟨w, ws, hsplit, hwid⟩ := r
    simp [hkv, hsplit, hwid]

theorem create_missing_actor_resolvedTo {fl : Faults} {cs : CtrlState} {db : DBState}
    {v : Str} {id : Nat} {cs' : CtrlState} {db' : DBState}
    (h : create_missing_actor fl cs db v = (some id, cs', db')) :
    cacheGet cs'.people_cache (pyStrip (pyLower v)) = some id := by
  rcases create_missing_actor_cache_cases fl cs db v with ⟨h1, h2⟩ | ⟨aid, h1, h2⟩
  · rw [h] at h2
    exact absurd h2 (by simp)
  · rw [h] at h1 h2
    simp only [Option.some.injEq] at h2
    have h1' : cs' = update_cache_for_actor cs v aid := h1
    rw [h1', h2]
    exact cacheGet_update_cache_full cs v aid

theorem find_actor_id_resolvedTo {fl : Faults} {cs : CtrlState} {db : DBState} {v : Str}
    {id : Nat} {cs' : CtrlState} {db' : DBState}
    (h : find_actor_id fl cs db v = (some id, cs', db')) :
    ResolvedTo cs'.people_cache v id := by
  unfold ResolvedTo
  simp only [find_actor_id] at h
  revert h
  split
  · rename_i j hj
    intro h
    injection h with ha hb
    injection hb with hb1 hb2
    rw [← hb1, hj]
    injection ha

  · rename_i hkey
    split
    · intro h
      rw [create_missing_actor_resolvedTo h]
    · rename_i w ws hsplit
      split
      · rename_i j hj
        intro h
        injection h with ha hb
        injection hb with hb1 hb2
        rw [← hb1, hkey]
        refine ⟨w, ws, hsplit, ?_⟩
        rw [hj]
        injection ha with ha'
        rw [ha']
      · intro h
        rw [create_missing_actor_resolvedTo h]

theorem resolveSeq_preserves_resolvedTo :
    ∀ (mid : List (Str × Faults)) (cs : CtrlState) (db : DBState) {v : Str} {id : Nat},
      ResolvedTo cs.people_cache v id →
      ResolvedTo (resolveSeq mid (cs, db)).1.people_cache v id := by
  intro mid
  induction mid with
  | nil =>
    intro cs db v id r
    exact r
  | cons e rest ih =>
    intro cs db v id r
    obtain ⟨v', fl⟩ := e
    have hstep : resolveSeq ((v', fl) :: rest) (cs, db) =
        resolveSeq rest ((find_actor_id fl cs db v').2.1, (find_actor_id fl cs db v').2.2) := by
      show (match find_actor_id fl cs db v' with
            | (_, cs', db') => resolveSeq rest (cs', db')) = _
      rcases find_actor_id fl cs db v' with ⟨a, b, c⟩
      rfl
    rw [hstep]
    exact ih _ _ (find_step_preserves_resolvedTo r fl db v')

/-! ## Helper lemmas: what each operation leaves untouched -/

theorem ensure_actor_row_temp (fl : Faults) (cs : CtrlState) (db : DBState)
    (pid : Nat) (v : Str) :
    (ensure_actor_row fl cs db pid v).2.2.temp_actors_titles = db.temp_actors_titles := by
  unfold ensure_actor_row
  split
  · rfl
  · split
    · rfl
    · split
      · rfl
      · rfl

theorem ensure_actor_row_rels (fl : Faults) (cs : CtrlState) (db : DBState)
    (pid : Nat) (v : Str) :
    (ensure_actor_row fl cs db pid v).2.2.actors_titles = db.actors_titles := by
  unfold ensure_actor_row
  split
  · rfl
  · split
    · rfl
    · split
      · rfl
      · rfl

theorem create_missing_actor_temp (fl : Faults) (cs : CtrlState) (db : DBState) (v : Str) :
    (create_missing_actor fl cs db v).2.2.temp_actors_titles = db.temp_actors_titles := by
  unfold create_missing_actor
  split
  · rfl
  · split
    · rw [ensure_actor_row_temp]
    · split
      · rfl
      · rw [ensure_actor_row_temp]

theorem create_missing_actor_rels (fl : Faults) (cs : CtrlState) (db : DBState) (v : Str) :
    (create_missing_actor fl cs db v).2.2.actors_titles = db.actors_titles := by
  unfold create_missing_actor
  split
  · rfl
  · split
    · rw [ensure_actor_row_rels]
    · split
      · rfl
      · rw [ensure_actor_row_rels]

theorem find_actor_id_temp (fl : Faults) (cs : CtrlState) (db : DBState) (v : Str) :
    (find_actor_id fl cs db v).2.2.temp_actors_titles = db.temp_actors_titles := by
  simp only [find_actor_id]
  split
  · rfl
  · split
    · rw [create_missing_actor_temp]
    · split
      · rfl
      · rw [create_missing_actor_temp]

theorem find_actor_id_rels (fl : Faults) (cs : CtrlState) (db : DBState) (v : Str) :
    (find_actor_id fl cs db v).2.2.actors_titles = db.actors_titles := by
  simp only [find_actor_id]
  split
  · rfl
  · split
    · rw [create_missing_actor_rels]
    · split
      · rfl
      · rw [create_missing_actor_rels]

/-! ## Helper lemmas: marking records processed -/

theorem marked_markProcessed (db : DBState) (rid : Nat) : Marked (markProcessed db rid) rid := by
  intro t ht hid
  unfold markProcessed at ht
  obtain ⟨t0, _, rfl⟩ := List.mem_map.mp ht
  by_cases h : t0.id = rid
  · simp [h]
  · simp only [if_neg h]
    simp only [if_neg h] at hid
    exact absurd hid h

theorem marked_mono_markProcessed {db : DBState} {i : Nat} (h : Marked db i) (rid : Nat) :
    Marked (markProcessed db rid) i := by
  intro t ht hid
  unfold markProcessed at ht
  obtain ⟨t0, ht0, rfl⟩ := List.mem_map.mp ht
  by_cases hcase : t0.id = rid
  · simp [hcase]
  · simp only [if_neg hcase] at hid ⊢
    exact h t0 ht0 hid

theorem marked_of_temp_eq {db db' : DBState} {i : Nat}
    (heq : db'.temp_actors_titles = db.temp_actors_titles) (h : Marked db i) :
    Marked db' i := by
  intro t ht hid
  exact h t (heq ▸ ht) hid

theorem mark_and_skip_marks {fl : Faults} (hfb : fl.fallback_mark_raises = false)
    (cs : CtrlState) (db : DBState) (rid : Nat) :
    Marked (mark_and_skip fl cs db rid).2.1 rid := by
  unfold mark_and_skip handle_failed_record
  split
  · rw [hfb]
    simp only [Bool.false_eq_true, if_false]
    exact marked_markProcessed db rid
  · exact marked_markProcessed db rid

theorem handle_failed_marks {fl : Faults} (hfb : fl.fallback_mark_raises = false)
    (cs : CtrlState) (db : DBState) (rid : Nat) :
    Marked (handle_failed_record fl cs db rid).2.1 rid := by
  unfold handle_failed_record
  rw [hfb]
  simp only [Bool.false_eq_true, if_false]
  exact marked_markProcessed db rid

theorem process_single_record_marks {fl : Faults} (hfb : fl.fallback_mark_raises = false)
    (cs : CtrlState) (db : DBState) (rid : Nat) (sid : Str) (v : Str) :
    Marked (process_single_record fl cs db rid sid v).2.1 rid := by
  unfold process_single_record
  split
  · rename_i aidOpt cs1 db1 hfind
    split
    · exact mark_and_skip_marks hfb cs1 db1 rid
    · split
      · exact mark_and_skip_marks hfb cs1 db1 rid
      · split
        · exact mark_and_skip_marks hfb cs1 db1 rid
        · split
          · exact mark_and_skip_marks hfb cs1 db1 rid
          · split
            · exact mark_and_skip_marks hfb cs1 db1 rid
            · split
              · exact handle_failed_marks hfb cs1 db1 rid
              · split
                · exact handle_failed_marks hfb cs1 db1 rid
                · exact marked_markProcessed _ rid

theorem mark_and_skip_marked_mono {fl : Faults} {cs : CtrlState} {db : DBState}
    {i : Nat} (h : Marked db i) (rid : Nat) :
    Marked (mark_and_skip fl cs db rid).2.1 i := by
  unfold mark_and_skip handle_failed_record
  split
  · split
    · exact h
    · exact marked_mono_markProcessed h rid
  · exact marked_mono_markProcessed h rid

theorem handle_failed_marked_mono {fl : Faults} {cs : CtrlState} {db : DBState}
    {i : Nat} (h : Marked db i) (rid : Nat) :
    Marked (handle_failed_record fl cs db rid).2.1 i := by
  unfold handle_failed_record
  split
  · exact h
  · exact marked_mono_markProcessed h rid

theorem process_single_record_marked_mono {fl : Faults} {cs : CtrlState} {db : DBState}
    {i : Nat} (h : Marked db i) (rid : Nat) (sid : Str) (v : Str) :
    Marked (process_single_record fl cs db rid sid v).2.1 i := by
  unfold process_single_record
  split
  · rename_i aidOpt cs1 db1 hfind
    have hdb1 : Marked db1 i := by
      apply marked_of_temp_eq _ h
      have := find_actor_id_temp fl cs db v
      rw [hfind] at this
      exact this
    split
    · exact mark_and_skip_marked_mono hdb1 rid
    · split
      · exact mark_and_skip_marked_mono hdb1 rid
      · split
        · exact mark_and_skip_marked_mono hdb1 rid
        · split
          · exact mark_and_skip_marked_mono hdb1 rid
          · split
            · exact mark_and_skip_marked_mono hdb1 rid
            · split
              · exact handle_failed_marked_mono hdb1 rid
              · split
                · exact handle_failed_marked_mono hdb1 rid
                · apply marked_mono_markProcessed _ rid
                  intro t ht hid
                  exact hdb1 t ht hid

theorem process_batch_marks (flFor : Nat → Faults)
    (hfb : ∀ i, (flFor i).fallback_mark_raises = false) :
    ∀ (rows : List TempActorTitleRow) (cs : CtrlState) (db : DBState),
      (∀ r ∈ rows, Marked (process_batch flFor cs db rows).2.1 r.id) ∧
      (∀ i, Marked db i → Marked (process_batch flFor cs db rows).2.1 i) := by
  intro rows
  induction rows with
  | nil =>
    intro cs db
    exact ⟨by simp, fun i h => h⟩
  | cons r rs ih =>
    intro cs db
    have hstep : process_batch flFor cs db (r :: rs) =
        match process_batch flFor
            (process_single_record (flFor r.id) cs db r.id r.show_id (pyStrip r.actor_name)).1
            (process_single_record (flFor r.id) cs db r.id r.show_id (pyStrip r.actor_name)).2.1
            rs with
        | (cs2, db2, (p', c', s')) =>
          (cs2, db2,
            ((process_single_record (flFor r.id) cs db r.id r.show_id (pyStrip r.actor_name)).2.2.1 + p',
             (process_single_record (flFor r.id) cs db r.id r.show_id (pyStrip r.actor_name)).2.2.2.1 + c',
             (process_single_record (flFor r.id) cs db r.id r.show_id (pyStrip r.actor_name)).2.2.2.2 + s')) := by
      show (match process_single_record (flFor r.id) cs db r.id r.show_id (pyStrip r.actor_name) with
            | (cs1, db1, (p, c, s)) =>
              match process_batch flFor cs1 db1 rs with
              | (cs2, db2, (p', c', s')) => (cs2, db2, (p + p', c + c', s + s'))) = _
      rcases process_single_record (flFor r.id) cs db r.id r.show_id (pyStrip r.actor_name)
        with ⟨a, b, p, c, s⟩
      rfl
    constructor
    · intro r' hr'
      rcases List.mem_cons.mp hr' with hh | hh
      · subst hh
        rw [hstep]
        rcases hpb : process_batch flFor _ _ rs with ⟨cs2, db2, p', c', s'⟩
        have hm : Marked (process_single_record (flFor r'.id) cs db r'.id r'.show_id
            (pyStrip r'.actor_name)).2.1 r'.id :=
          process_single_record_marks (hfb r'.id) cs db r'.id r'.show_id (pyStrip r'.actor_name)
        have := (ih (process_single_record (flFor r'.id) cs db r'.id r'.show_id
          (pyStrip r'.actor_name)).1 (process_single_record (flFor r'.id) cs db r'.id
          r'.show_id (pyStrip r'.actor_name)).2.1).2 r'.id hm
        rw [hpb] at this
        exact this
      · rw [hstep]
        rcases hpb : process_batch flFor _ _ rs with ⟨cs2, db2, p', c', s'⟩
        have := (ih (process_single_record (flFor r.id) cs db r.id r.show_id
          (pyStrip r.actor_name)).1 (process_single_record (flFor r.id) cs db r.id
          r.show_id (pyStrip r.actor_name)).2.1).1 r' hh
        rw [hpb] at this
        exact this
    · intro i h
      rw [hstep]
      rcases hpb : process_batch flFor _ _ rs with ⟨cs2, db2, p', c', s'⟩
      have hm : Marked (process_single_record (flFor r.id) cs db r.id r.show_id
          (pyStrip r.actor_name)).2.1 i :=
        process_single_record_marked_mono h r.id r.show_id (pyStrip r.actor_name)
      have := (ih (process_single_record (flFor r.id) cs db r.id r.show_id
        (pyStrip r.actor_name)).1 (process_single_record (flFor r.id) cs db r.id
        r.show_id (pyStrip r.actor_name)).2.1).2 i hm
      rw [hpb] at this
      exact this

theorem process_single_record_noFaults_count (cs : CtrlState) (db : DBState)
    (rid : Nat) (sid : Str) (v : Str) :
    (process_single_record noFaults cs db rid sid v).2.2.1 = 1 := by
  unfold process_single_record
  split
  · rename_i aidOpt cs1 db1 hfind
    have hms : ∀ (cs' : CtrlState) (db' : DBState) (r : Nat),
        (mark_and_skip noFaults cs' db' r).2.2.1 = 1 := by
      intro cs' db' r
      unfold mark_and_skip
      rfl
    split
    · exact hms cs1 db1 rid
    · split
      · exact hms cs1 db1 rid
      · split
        · exact hms cs1 db1 rid
        · split
          · exact hms cs1 db1 rid
          · split
            · exact hms cs1 db1 rid
            · split
              · rename_i hins
                exact absurd hins (by simp [noFaults])
              · split
                · rename_i hmk
                  exact absurd hmk (by simp [noFaults])
                · rfl

theorem process_batch_noFaults_count :
    ∀ (rows : List TempActorTitleRow) (cs : CtrlState) (db : DBState),
      (process_batch (fun _ => noFaults) cs db rows).2.2.1 = rows.length := by
  intro rows
  induction rows with
  | nil => intro cs db; rfl
  | cons r rs ih =>
    intro cs db
    show (match process_single_record noFaults cs db r.id r.show_id (pyStrip r.actor_name) with
          | (cs1, db1, (p, c, s)) =>
            match process_batch (fun _ => noFaults) cs1 db1 rs with
            | (cs2, db2, (p', c', s')) => (cs2, db2, (p + p', c + c', s + s'))).2.2.1 =
      rs.length + 1
    rcases hps : process_single_record noFaults cs db r.id r.show_id (pyStrip r.actor_name)
      with ⟨cs1, db1, p, c, s⟩
    simp only [hps]
    rcases hpb : process_batch (fun _ => noFaults) cs1 db1 rs with ⟨cs2, db2, p', c', s'⟩
    simp only [hpb]
    show p + p' = rs.length + 1
    have hp1 : p = 1 := by
      have := process_single_record_noFaults_count cs db r.id r.show_id (pyStrip r.actor_name)
      rw [hps] at this
      exact this
    have hp' : p' = rs.length := by
      have := ih cs1 db1
      rw [hpb] at this
      exact this
    omega

theorem drain_loop_one_page (flFor : Nat → Faults) (bs total fuel offset : Nat)
    (cs : CtrlState) (db : DBState) (acc : Nat × Nat × Nat)
    (hlt : offset < total) (hge : total ≤ offset + bs) :
    drain_loop flFor bs total (fuel + 2) offset cs db acc =
      match ((unprocessedRows db).drop offset).take bs with
      | [] => (cs, db, acc)
      | b =>
        match process_batch flFor cs db b with
        | (cs1, db1, (p, c, s)) => (cs1, db1, (acc.1 + p, acc.2.1 + c, acc.2.2 + s)) := by
  show (if offset < total then
          match ((unprocessedRows db).drop offset).take bs with
          | [] => (cs, db, acc)
          | b =>
            match process_batch flFor cs db b with
            | (cs1, db1, (p, c, s)) =>
              drain_loop flFor bs total (fuel + 1) (offset + bs) cs1 db1
                (acc.1 + p, acc.2.1 + c, acc.2.2 + s)
        else (cs, db, acc)) = _
  rw [if_pos hlt]
  cases htake : ((unprocessedRows db).drop offset).take bs with
  | nil => rfl
  | cons r rs =>
    rcases hpb : process_batch flFor cs db (r :: rs) with ⟨cs1, db1, p, c, s⟩
    simp only [hpb]
    show (if offset + bs < total then _ else (cs1, db1, (acc.1 + p, acc.2.1 + c, acc.2.2 + s))) = _
    rw [if_neg (by omega)]

theorem tempRel_refl (db : DBState) : TempRel db db :=
  fun t' ht' => ⟨t', ht', rfl, fun h => h⟩

theorem tempRel_of_temp_eq {db db' : DBState}
    (h : db'.temp_actors_titles = db.temp_actors_titles) : TempRel db db' :=
  fun t' ht' => ⟨t', h ▸ ht', rfl, fun hp => hp⟩

theorem tempRel_trans {a b c : DBState} (h1 : TempRel a b) (h2 : TempRel b c) :
    TempRel a c := by
  intro t' ht'
  obtain ⟨tb, htb, hid2, hp2⟩ := h2 t' ht'
  obtain ⟨ta, hta, hid1, hp1⟩ := h1 tb htb
  exact ⟨ta, hta, hid2.trans hid1, fun hp => hp2 (hp1 hp)⟩

theorem tempRel_markProcessed (db : DBState) (rid : Nat) :
    TempRel db (markProcessed db rid) := by
  intro t' ht'
  unfold markProcessed at ht'
  obtain ⟨t, ht, rfl⟩ := List.mem_map.mp ht'
  by_cases h : t.id = rid
  · exact ⟨t, ht, by simp [h], by simp [h]⟩
  · exact ⟨t, ht, by simp [h], by simp [h]⟩

theorem tempRel_mark_and_skip (fl : Faults) (cs : CtrlState) (db : DBState) (rid : Nat) :
    TempRel db (mark_and_skip fl cs db rid).2.1 := by
  unfold mark_and_skip handle_failed_record
  split
  · split
    · exact tempRel_refl db
    · exact tempRel_markProcessed db rid
  · exact tempRel_markProcessed db rid

theorem tempRel_handle_failed (fl : Faults) (cs : CtrlState) (db : DBState) (rid : Nat) :
    TempRel db (handle_failed_record fl cs db rid).2.1 := by
  unfold handle_failed_record
  split
  · exact tempRel_refl db
  · exact tempRel_markProcessed db rid

theorem tempRel_process_single_record (fl : Faults) (cs : CtrlState) (db : DBState)
    (rid : Nat) (sid : Str) (v : Str) :
    TempRel db (process_single_record fl cs db rid sid v).2.1 := by
  unfold process_single_record
  split
  · rename_i aidOpt cs1 db1 hfind
    have hrel : TempRel db db1 := by
      apply tempRel_of_temp_eq
      have := find_actor_id_temp fl cs db v
      rw [hfind] at this
      exact this
    split
    · exact tempRel_trans hrel (tempRel_mark_and_skip fl cs1 db1 rid)
    · split
      · exact tempRel_trans hrel (tempRel_mark_and_skip fl cs1 db1 rid)
      · split
        · exact tempRel_trans hrel (tempRel_mark_and_skip fl cs1 db1 rid)
        · split
          · exact tempRel_trans hrel (tempRel_mark_and_skip fl cs1 db1 rid)
          · split
            · exact tempRel_trans hrel (tempRel_mark_and_skip fl cs1 db1 rid)
            · split
              · exact tempRel_trans hrel (tempRel_handle_failed fl cs1 db1 rid)
              · split
                · exact tempRel_trans hrel (tempRel_handle_failed fl cs1 db1 rid)
                · refine tempRel_trans hrel ?_
                  exact tempRel_markProcessed _ rid

theorem tempRel_process_batch (flFor : Nat → Faults) :
    ∀ (rows : List TempActorTitleRow) (cs : CtrlState) (db : DBState),
      TempRel db (process_batch flFor cs db rows).2.1 := by
  intro rows
  induction rows with
  | nil => intro cs db; exact tempRel_refl db
  | cons r rs ih =>
    intro cs db
    show TempRel db (match process_single_record (flFor r.id) cs db r.id r.show_id
        (pyStrip r.actor_name) with
      | (cs1, db1, (p, c, s)) =>
        match process_batch flFor cs1 db1 rs with
        | (cs2, db2, (p', c', s')) => (cs2, db2, (p + p', c + c', s + s'))).2.1
    rcases hps : process_single_record (flFor r.id) cs db r.id r.show_id (pyStrip r.actor_name)
      with ⟨cs1, db1, p, c, s⟩
    simp only [hps]
    rcases hpb : process_batch flFor cs1 db1 rs with ⟨cs2, db2, p', c', s'⟩
    simp only [hpb]
    have h1 : TempRel db db1 := by
      have := tempRel_process_single_record (flFor r.id) cs db r.id r.show_id
        (pyStrip r.actor_name)
      rw [hps] at this
      exact this
    have h2 : TempRel db1 db2 := by
      have := ih cs1 db1
      rw [hpb] at this
      exact this
    exact tempRel_trans h1 h2

theorem countUnprocessed_zero_iff (db : DBState) :
    countUnprocessed db = 0 ↔ ∀ r ∈ db.temp_actors_titles, r.processed = true := by
  unfold countUnprocessed unprocessedRows
  rw [List.length_eq_zero]
  constructor
  · intro h r hr
    have := List.filter_eq_nil_iff.mp h r hr
    simpa using this
  · intro h
    apply List.filter_eq_nil_iff.mpr
    intro r hr
    simp [h r hr]

theorem populate_completes_of_le_batch (bs : Nat) (cs : CtrlState) (db : DBState)
    (hle : countUnprocessed db ≤ bs) :
    (∀ r ∈ (populate_actors_titles_table_from_temp (fun _ => noFaults) bs cs
        db).2.1.temp_actors_titles, r.processed = true) ∧
    (populate_actors_titles_table_from_temp (fun _ => noFaults) bs cs db).2.2.1 =
      countUnprocessed db := by
  by_cases h0 : countUnprocessed db = 0
  · have hres : populate_actors_titles_table_from_temp (fun _ => noFaults) bs cs db =
        (cs, db, (0, 0, 0)) := by
      unfold populate_actors_titles_table_from_temp
      rw [if_pos h0]
    rw [hres, h0]
    exact ⟨(countUnprocessed_zero_iff db).mp h0, rfl⟩
  · have hpos : 1 ≤ countUnprocessed db := Nat.one_le_iff_ne_zero.mpr h0
    have hfuel : countUnprocessed db + 1 = (countUnprocessed db - 1) + 2 := by omega
    have hres : populate_actors_titles_table_from_temp (fun _ => noFaults) bs cs db =
        drain_loop (fun _ => noFaults) bs (countUnprocessed db)
          (countUnprocessed db + 1) 0
          (build_title_cache db (build_people_cache db cs)) db (0, 0, 0) := by
      unfold populate_actors_titles_table_from_temp
      rw [if_neg h0]
    rw [hres, hfuel]
    rw [drain_loop_one_page (fun _ => noFaults) bs (countUnprocessed db)
      (countUnprocessed db - 1) 0 _ db (0, 0, 0) (by omega) (by omega)]
    have htake : ((unprocessedRows db).drop 0).take bs = unprocessedRows db := by
      rw [List.drop_zero]
      exact List.take_of_length_le hle
    rw [htake]
    have hne : unprocessedRows db ≠ [] := by
      intro h
      apply h0
      unfold countUnprocessed
      rw [h]
      rfl
    obtain ⟨r0, rs0, hrows⟩ := List.exists_cons_of_ne_nil hne
    rw [hrows]
    rcases hpb : process_batch (fun _ => noFaults)
        (build_title_cache db (build_people_cache db cs)) db (r0 :: rs0)
      with ⟨cs1, db1, p, c, s⟩
    simp only [hpb]
    constructor
    · intro t' ht'
      have hrel : TempRel db db1 := by
        have := tempRel_process_batch (fun _ => noFaults) (r0 :: rs0)
          (build_title_cache db (build_people_cache db cs)) db
        rw [hpb] at this
        exact this
      obtain ⟨t, ht, hid, hp⟩ := hrel t' ht'
      by_cases hproc : t.processed = true
      · exact hp hproc
      · have htmem : t ∈ unprocessedRows db := by
          unfold unprocessedRows
          apply List.mem_filter.mpr
          exact ⟨ht, by simp [hproc]⟩
        have hmarked : Marked db1 t.id := by
          have := (process_batch_marks (fun _ => noFaults) (fun _ => rfl) (r0 :: rs0)
            (build_title_cache db (build_people_cache db cs)) db).1 t (hrows ▸ htmem)
          rw [hpb] at this
          exact this
        exact hmarked t' ht' hid
    · show 0 + p = countUnprocessed db
      have hp : p = (r0 :: rs0).length := by
        have := process_batch_noFaults_count (r0 :: rs0)
          (build_title_cache db (build_people_cache db cs)) db
        rw [hpb] at this
        exact this
      have hlen : (r0 :: rs0).length = countUnprocessed db := by
        rw [← hrows]
        rfl
      omega

/-! ## Helper lemmas: no duplicate junction rows -/

theorem rels_mark_and_skip (fl : Faults) (cs : CtrlState) (db : DBState) (rid : Nat) :
    (mark_and_skip fl cs db rid).2.1.actors_titles = db.actors_titles := by
  unfold mark_and_skip handle_failed_record
  split
  · split
    · rfl
    · rfl
  · rfl

theorem rels_handle_failed (fl : Faults) (cs : CtrlState) (db : DBState) (rid : Nat) :
    (handle_failed_record fl cs db rid).2.1.actors_titles = db.actors_titles := by
  unfold handle_failed_record
  split
  · rfl
  · rfl

theorem process_single_record_nodup {fl : Faults} (hc : fl.check_rel_raises = false)
    (cs : CtrlState) (db : DBState) (rid : Nat) (sid : Str) (v : Str)
    (h : db.actors_titles.Nodup) :
    (process_single_record fl cs db rid sid v).2.1.actors_titles.Nodup := by
  rcases hfind : find_actor_id fl cs db v with ⟨aidOpt, cs1, db1⟩
  have hdb1 : db1.actors_titles = db.actors_titles := by
    have := find_actor_id_rels fl cs db v
    rw [hfind] at this
    exact this
  have h1 : db1.actors_titles.Nodup := hdb1 ▸ h
  have hmas : (mark_and_skip fl cs1 db1 rid).2.1.actors_titles.Nodup := by
    rw [rels_mark_and_skip]; exact h1
  have hhf : (handle_failed_record fl cs1 db1 rid).2.1.actors_titles.Nodup := by
    rw [rels_handle_failed]; exact h1
  unfold process_single_record
  rw [hfind]
  cases aidOpt with
  | none => exact hmas
  | some aid =>
    show (if aid = 0 then mark_and_skip fl cs1 db1 rid
          else match cacheGet cs1.title_cache sid with
            | none => mark_and_skip fl cs1 db1 rid
            | some tid =>
              if tid = 0 then mark_and_skip fl cs1 db1 rid
              else if check_existing_relationship fl db1 aid tid then
                mark_and_skip fl cs1 db1 rid
              else if fl.insert_rel_raises then handle_failed_record fl cs1 db1 rid
              else if fl.mark_raises then handle_failed_record fl cs1 db1 rid
              else
                (cs1,
                 markProcessed
                   { db1 with actors_titles := db1.actors_titles ++ [(aid, tid)] } rid,
                 (1, 1, 0))).2.1.actors_titles.Nodup
    by_cases haid : aid = 0
    · rw [if_pos haid]; exact hmas
    · rw [if_neg haid]
      cases htc : cacheGet cs1.title_cache sid with
      | none => exact hmas
      | some tid =>
        show (if tid = 0 then mark_and_skip fl cs1 db1 rid
              else if check_existing_relationship fl db1 aid tid then
                mark_and_skip fl cs1 db1 rid
              else if fl.insert_rel_raises then handle_failed_record fl cs1 db1 rid
              else if fl.mark_raises then handle_failed_record fl cs1 db1 rid
              else
                (cs1,
                 markProcessed
                   { db1 with actors_titles := db1.actors_titles ++ [(aid, tid)] } rid,
                 (1, 1, 0))).2.1.actors_titles.Nodup
        by_cases htid : tid = 0
        · rw [if_pos htid]; exact hmas
        · rw [if_neg htid]
          by_cases hchk : check_existing_relationship fl db1 aid tid = true
          · rw [if_pos hchk]; exact hmas
          · rw [if_neg hchk]
            by_cases hins : fl.insert_rel_raises = true
            · rw [if_pos hins]; exact hhf
            · rw [if_neg hins]
              by_cases hmk : fl.mark_raises = true
              · rw [if_pos hmk]; exact hhf
              · rw [if_neg hmk]
                show ((markProcessed
                    { db1 with actors_titles := db1.actors_titles ++ [(aid, tid)] }
                    rid).actors_titles).Nodup
                show (db1.actors_titles ++ [(aid, tid)]).Nodup
                have hmem : (aid, tid) ∉ db1.actors_titles := by
                  unfold check_existing_relationship at hchk
                  rw [hc] at hchk
                  simp only [Bool.false_eq_true, if_false] at hchk
                  intro hmem
                  apply hchk
                  exact List.elem_eq_true_of_mem hmem
                have hperm : (db1.actors_titles ++ [(aid, tid)]).Perm
                    ((aid, tid) :: db1.actors_titles) := List.perm_append_singleton _ _
                apply hperm.nodup_iff.mpr
                exact List.nodup_cons.mpr ⟨hmem, h1⟩

theorem process_batch_nodup (flFor : Nat → Faults)
    (hc : ∀ i, (flFor i).check_rel_raises = false) :
    ∀ (rows : List TempActorTitleRow) (cs : CtrlState) (db : DBState),
      db.actors_titles.Nodup → (process_batch flFor cs db rows).2.1.actors_titles.Nodup := by
  intro rows
  induction rows with
  | nil => intro cs db h; exact h
  | cons r rs ih =>
    intro cs db h
    show (match process_single_record (flFor r.id) cs db r.id r.show_id
        (pyStrip r.actor_name) with
      | (cs1, db1, (p, c, s)) =>
        match process_batch flFor cs1 db1 rs with
        | (cs2, db2, (p', c', s')) => (cs2, db2, (p + p', c + c', s + s'))).2.1.actors_titles.Nodup
    rcases hps : process_single_record (flFor r.id) cs db r.id r.show_id (pyStrip r.actor_name)
      with ⟨cs1, db1, p, c, s⟩
    simp only [hps]
    rcases hpb : process_batch flFor cs1 db1 rs with ⟨cs2, db2, p', c', s'⟩
    simp only [hpb]
    have h1 : db1.actors_titles.Nodup := by
      have := process_single_record_nodup (hc r.id) cs db r.id r.show_id
        (pyStrip r.actor_name) h
      rw [hps] at this
      exact this
    have := ih cs1 db1 h1
    rw [hpb] at this
    exact this

theorem drain_loop_nodup (flFor : Nat → Faults)
    (hc : ∀ i, (flFor i).check_rel_raises = false) (bs total : Nat) :
    ∀ (fuel offset : Nat) (cs : CtrlState) (db : DBState) (acc : Nat × Nat × Nat),
      db.actors_titles.Nodup →
      (drain_loop flFor bs total fuel offset cs db acc).2.1.actors_titles.Nodup := by
  intro fuel
  induction fuel with
  | zero => intro offset cs db acc h; exact h
  | succ n ih =>
    intro offset cs db acc h
    show (if offset < total then
        match ((unprocessedRows db).drop offset).take bs with
        | [] => (cs, db, acc)
        | b =>
          match process_batch flFor cs db b with
          | (cs1, db1, (p, c, s)) =>
            drain_loop flFor bs total n (offset + bs) cs1 db1
              (acc.1 + p, acc.2.1 + c, acc.2.2 + s)
      else (cs, db, acc)).2.1.actors_titles.Nodup
    split
    · cases htake : ((unprocessedRows db).drop offset).take bs with
      | nil => exact h
      | cons r rs =>
        rcases hpb : process_batch flFor cs db (r :: rs) with ⟨cs1, db1, p, c, s⟩
        simp only [hpb]
        apply ih
        have := process_batch_nodup flFor hc (r :: rs) cs db h
        rw [hpb] at this
        exact this
    · exact h

theorem populate_nodup (flFor : Nat → Faults)
    (hc : ∀ i, (flFor i).check_rel_raises = false) (bs : Nat)
    (cs : CtrlState) (db : DBState) (h : db.actors_titles.Nodup) :
    (populate_actors_titles_table_from_temp flFor bs cs db).2.1.actors_titles.Nodup := by
  unfold populate_actors_titles_table_from_temp
  by_cases h0 : countUnprocessed db = 0
  · rw [if_pos h0]
    exact h
  · rw [if_neg h0]
    exact drain_loop_nodup flFor hc bs (countUnprocessed db) _ 0 _ db (0, 0, 0) h

/-! ## Helper lemmas: stagers -/

theorem pySplitCommaAux_no_comma (s : Str) (hs : ∀ c ∈ s, c ≠ ',') :
    ∀ acc, pySplitCommaAux s acc = [acc.reverse ++ s] := by
  induction s with
  | nil =>
    intro acc
    simp [pySplitCommaAux]
  | cons c cs ih =>
    intro acc
    unfold pySplitCommaAux
    rw [if_neg (hs c (List.mem_cons_self c cs))]
    rw [ih (fun x hx => hs x (List.mem_cons_of_mem c hx)) (c :: acc)]
    simp

theorem pySplitComma_no_comma {s : Str} (hs : ∀ c ∈ s, c ≠ ',') :
    pySplitComma s = [s] := by
  unfold pySplitComma
  rw [pySplitCommaAux_no_comma s hs []]
  simp

theorem pyStripSet_eq_nil_all {cs : List Char} {s : Str}
    (h : pyStripSet cs s = []) : ∀ c ∈ s, c ∈ cs := by
  unfold pyStripSet at h
  rw [List.reverse_eq_nil_iff] at h
  rw [List.dropWhile_eq_nil_iff] at h
  intro c hc
  have hsplit : s = s.takeWhile (fun c => decide (c ∈ cs)) ++
      s.dropWhile (fun c => decide (c ∈ cs)) :=
    (List.takeWhile_append_dropWhile _ _).symm
  rw [hsplit] at hc
  rcases List.mem_append.mp hc with h' | h'
  · have := List.mem_takeWhile_imp h'
    simpa using this
  · have : c ∈ (s.dropWhile (fun c => decide (c ∈ cs))).reverse := List.mem_reverse.mpr h'
    have := h c this
    simpa using this

theorem pyStrip_all_space {s : Str} (h : ∀ c ∈ s, c = ' ') : pyStrip s = [] := by
  unfold pyStrip
  have h1 : s.dropWhile Char.isWhitespace = [] := by
    rw [List.dropWhile_eq_nil_iff]
    intro c hc
    rw [h c hc]
    decide
  rw [h1]
  rfl

theorem extract_row_spec_empty (sid : Str) {c : Str}
    (hc : c = [] ∨ sqlTrim c = [] ∨ c = "unknown".toList) :
    List.filterMap (fun tok =>
      let a := pyStrip tok
      if !(a = [] : Bool) && !(pyLower a = "unknown".toList : Bool) then some (sid, a)
      else none) (pySplitComma c) = [] := by
  rcases hc with rfl | htrim | rfl
  · simp [pySplitComma, pySplitCommaAux, pyStrip]
  · have hall : ∀ x ∈ c, x = ' ' := by
      intro x hx
      have := pyStripSet_eq_nil_all htrim x hx
      simpa using this
    have hnc : ∀ x ∈ c, x ≠ ',' := by
      intro x hx
      rw [hall x hx]
      decide
    rw [pySplitComma_no_comma hnc]
    have hstrip : pyStrip c = [] := pyStrip_all_space hall
    simp [List.filterMap, hstrip]
  · have hsplit : pySplitComma ("unknown".toList) = ["unknown".toList] := by decide
    rw [hsplit]
    simp only [List.filterMap]
    rw [if_neg (by decide)]

theorem extract_actor_records_eq_spec (rows : List NetflixSourceRow) :
    extract_actor_records rows = stagerSpecCandidates rows := by
  induction rows with
  | nil => rfl
  | cons r rs ih =>
    unfold extract_actor_records stagerSpecCandidates
    unfold extract_actor_records stagerSpecCandidates at ih
    rw [List.filter_cons]
    by_cases hpass : (match r.cast with
      | none => false
      | some c =>
        !(c = [] : Bool) && !(sqlTrim c = [] : Bool) &&
          !(c = "unknown".toList : Bool)) = true
    · rw [if_pos hpass, List.flatMap_cons, List.flatMap_cons, ih]
      congr 1
      cases hcast : r.cast with
      | none => rw [hcast] at hpass; simp at hpass
      | some c => simp [hcast]
    · rw [if_neg hpass, List.flatMap_cons, ih]
      cases hcast : r.cast with
      | none => simp
      | some c =>
        rw [hcast] at hpass
        have hc : c = [] ∨ sqlTrim c = [] ∨ c = "unknown".toList := by
          by_contra hcon
          push_neg at hcon
          obtain ⟨h1, h2, h3⟩ := hcon
          have h3' : ¬c = ['u', 'n', 'k', 'n', 'o', 'w', 'n'] := by simpa using h3
          apply hpass
          simp [h1, h2, h3']
        have hz := extract_row_spec_empty r.show_id hc
        simpa using hz

theorem insertSorted_perm (x : Str) (l : List Str) :
    (insertSorted x l).Perm (x :: l) := by
  induction l with
  | nil => exact List.Perm.refl _
  | cons y ys ih =>
    unfold insertSorted
    split
    · exact List.Perm.refl _
    · exact List.Perm.trans (List.Perm.cons y ih) (List.Perm.swap x y ys)

theorem sortStrs_perm (l : List Str) : (sortStrs l).Perm l := by
  induction l with
  | nil => exact List.Perm.refl _
  | cons x xs ih =>
    exact List.Perm.trans (insertSorted_perm x _) (List.Perm.cons x ih)

theorem mem_sortStrs {a : Str} {l : List Str} : a ∈ sortStrs l ↔ a ∈ l :=
  (sortStrs_perm l).mem_iff

theorem sortStrs_dedup_nodup (l : List Str) : (sortStrs l.dedup).Nodup :=
  ((sortStrs_perm l.dedup).nodup_iff).mpr (List.nodup_dedup l)

/-! ## Claim theorems -/

/-- C6: the person-name word-count rule: 1 token → first only; 2 tokens →
first + last; 3 tokens → first + middle + last; more than 3 tokens → first,
second as middle, remaining tokens joined with spaces as last. -/
theorem parse_director_name_word_count_rule (s : Str) :
    (∀ w0, pySplitWS (pyStrip s) = [w0] →
      parse_director_name s = some ⟨w0, none, none⟩) ∧
    (∀ w0 w1, pySplitWS (pyStrip s) = [w0, w1] →
      parse_director_name s = some ⟨w0, none, some w1⟩) ∧
    (∀ w0 w1 w2, pySplitWS (pyStrip s) = [w0, w1, w2] →
      parse_director_name s = some ⟨w0, some w1, some w2⟩) ∧
    (∀ w0 w1 w2 w3 rest, pySplitWS (pyStrip s) = w0 :: w1 :: w2 :: w3 :: rest →
      parse_director_name s = some ⟨w0, some w1, some (pyJoinSpace (w2 :: w3 :: rest))⟩) := by
  have hguard : ∀ w0 rest, pySplitWS (pyStrip s) = w0 :: rest →
      ¬(s = [] ∨ pyStrip s = []) := by
    intro w0 rest h hcon
    have hstrip : pyStrip s = [] := by
      rcases hcon with rfl | h' 
      · rfl
      · exact h'
    rw [hstrip] at h
    exact List.noConfusion h
  refine ⟨?_, ?_, ?_, ?_⟩
  · intro w0 h
    unfold parse_director_name
    rw [if_neg (hguard w0 [] h), h]
  · intro w0 w1 h
    unfold parse_director_name
    rw [if_neg (hguard w0 [w1] h), h]
  · intro w0 w1 w2 h
    unfold parse_director_name
    rw [if_neg (hguard w0 [w1, w2] h), h]
    rfl
  · intro w0 w1 w2 w3 rest h
    unfold parse_director_name
    rw [if_neg (hguard w0 (w1 :: w2 :: w3 :: rest) h), h]

/-- Witness for C6: the four examples of the claim, by the word-count rule.
`"Anna"` → (Anna, None, None); `"Anna Lee"` → (Anna, None, Lee);
`"Anna Marie Lee"` → (Anna, Marie, Lee); `"Anna Marie Lee Ocampo"` →
(Anna, Marie, "Lee Ocampo"). -/
theorem parse_director_name_word_count_rule_witness :
    parse_director_name "Anna".toList = some ⟨"Anna".toList, none, none⟩ ∧
    parse_director_name "Anna Lee".toList =
      some ⟨"Anna".toList, none, some "Lee".toList⟩ ∧
    parse_director_name "Anna Marie Lee".toList =
      some ⟨"Anna".toList, some "Marie".toList, some "Lee".toList⟩ ∧
    parse_director_name "Anna Marie Lee Ocampo".toList =
      some ⟨"Anna".toList, some "Marie".toList, some "Lee Ocampo".toList⟩ :=
  ⟨(parse_director_name_word_count_rule "Anna".toList).1 "Anna".toList (by decide),
   (parse_director_name_word_count_rule "Anna Lee".toList).2.1 "Anna".toList
     "Lee".toList (by decide),
   (parse_director_name_word_count_rule "Anna Marie Lee".toList).2.2.1 "Anna".toList
     "Marie".toList "Lee".toList (by decide),
   (parse_director_name_word_count_rule "Anna Marie Lee Ocampo".toList).2.2.2
     "Anna".toList "Marie".toList "Lee".toList "Ocampo".toList [] (by decide)⟩

/-- Counterexample for C7: `normalize_name` does not collapse internal
whitespace and does not case-fold, so the three spec inputs normalize to
three distinct strings; and resolving the three inputs in one fresh run
creates two person entities (ids 1 and 2) instead of resolving all three to
one id: `"José  García"` resolves to 1, `" jose garcia "` to 2. -/
theorem normalize_name_not_canonical :
    normalize_name "José  García".toList = "Jose  Garcia".toList ∧
    normalize_name " jose garcia ".toList = "jose garcia".toList ∧
    normalize_name "JOSE GARCIA".toList = "JOSE GARCIA".toList ∧
    normalize_name "José  García".toList ≠ normalize_name "JOSE GARCIA".toList ∧
    normalize_name " jose garcia ".toList ≠ normalize_name "JOSE GARCIA".toList ∧
    (find_actor_id noFaults ⟨[], []⟩ emptyDB "José  García".toList).1 = some 1 ∧
    (runEvents
      [RunEvent.resolve "José  García".toList noFaults,
       RunEvent.resolve " jose garcia ".toList noFaults,
       RunEvent.resolve "JOSE GARCIA".toList noFaults]
      (⟨[], []⟩, emptyDB)).2.people =
      [⟨1, "José".toList, none, some "García".toList⟩,
       ⟨2, "jose".toList, none, some "garcia".toList⟩] := by
  refine ⟨by decide, by decide, by decide, by decide, by decide, by decide, by decide⟩

theorem normalize_name_strip_congr {a b : Str} (h : pyStrip a = pyStrip b) :
    normalize_name a = normalize_name b := by
  unfold normalize_name
  rw [h]

set_option maxHeartbeats 2000000 in
/-- C7 as amended: `normalize_name` is a total function that trims
surrounding whitespace, strips surrounding quotes, deletes smart quotes,
zero-width spaces and hyphens, maps non-breaking spaces to spaces and drops
non-ASCII characters after NFKD decomposition; it neither collapses internal
whitespace nor case-folds, so `"José  García"`, `" jose garcia "` and
`"JOSE GARCIA"` normalize to three pairwise distinct strings, and one fresh
resolver run over the three inputs creates two distinct person entities —
`"José  García"` resolves to entity 1, the other two to entity 2. -/
theorem normalize_name_behaviour :
    normalize_name "José  García".toList = "Jose  Garcia".toList ∧
    normalize_name " jose garcia ".toList = "jose garcia".toList ∧
    normalize_name "JOSE GARCIA".toList = "JOSE GARCIA".toList ∧
    normalize_name "José  García".toList ≠ normalize_name " jose garcia ".toList ∧
    normalize_name " jose garcia ".toList ≠ normalize_name "JOSE GARCIA".toList ∧
    normalize_name "José  García".toList ≠ normalize_name "JOSE GARCIA".toList ∧
    (∀ s : Str, normalize_name (' ' :: s ++ [' ']) = normalize_name s) ∧
    (find_actor_id noFaults ⟨[], []⟩ emptyDB "José  García".toList).1 = some 1 ∧
    (runEvents
      [RunEvent.resolve "José  García".toList noFaults,
       RunEvent.resolve " jose garcia ".toList noFaults,
       RunEvent.resolve "JOSE GARCIA".toList noFaults]
      (⟨[], []⟩, emptyDB)).2.people.length = 2 := by
  refine ⟨by decide, by decide, by decide, by decide, by decide, by decide, ?_,
    by decide, by decide⟩
  intro s
  apply normalize_name_strip_congr
  unfold pyStrip
  rw [List.cons_append, List.dropWhile_cons_of_pos (by decide)]
  congr 1
  rw [List.dropWhile_append]
  cases hu : s.dropWhile Char.isWhitespace with
  | nil => simp
  | cons c cs =>
    simp only [List.isEmpty_cons, Bool.false_eq_true, if_false]
    rw [show ((c :: cs) ++ [' ']).reverse = ' ' :: (c :: cs).reverse by simp]
    rw [List.dropWhile_cons_of_pos (by decide)]

/-- Counterexample for C8: the people stager (`create_temp_people_table`)
filters only whole fields, so with cast `"Anna,,unknown"` it keeps an empty
token and an `"unknown"` token, and it deduplicates across source rows, so
the two (row, "Anna") pairs yield a single staging row. -/
theorem create_temp_people_table_keeps_sentinels :
    create_temp_people_table
      [⟨"s1".toList, none, some "Anna,,unknown".toList⟩,
       ⟨"s2".toList, none, some "Anna".toList⟩] =
      [([], false), ("Anna".toList, false), ("unknown".toList, false)] ∧
    (([], false) ∈ create_temp_people_table
      [⟨"s1".toList, none, some "Anna,,unknown".toList⟩,
       ⟨"s2".toList, none, some "Anna".toList⟩]) ∧
    (("unknown".toList, false) ∈ create_temp_people_table
      [⟨"s1".toList, none, some "Anna,,unknown".toList⟩,
       ⟨"s2".toList, none, some "Anna".toList⟩]) ∧
    (create_temp_people_table
      [⟨"s1".toList, none, some "Anna,,unknown".toList⟩,
       ⟨"s2".toList, none, some "Anna".toList⟩]).count ("Anna".toList, false) = 1 := by
  refine ⟨by decide, by decide, by decide, by decide⟩

/-- C8 as amended: the actors stager produces exactly one candidate per
(source row, comma-token occurrence) whose stripped token is non-empty and
not (case-insensitively) `"unknown"`, each stored stripped, and replaces the
staging table wholesale so that re-runs are idempotent; the people stager
instead filters only whole fields (keeping empty and `"unknown"` tokens of
multi-valued fields), stores no source key, and deduplicates and sorts the
names — one unprocessed row per distinct token. -/
theorem stager_behaviour :
    (∀ rows, extract_actor_records rows = stagerSpecCandidates rows) ∧
    (∀ rows t t', create_temp_actors_titles_table rows t =
      create_temp_actors_titles_table rows t') ∧
    (∀ rows t, create_temp_actors_titles_table rows
      (create_temp_actors_titles_table rows t) = create_temp_actors_titles_table rows t) ∧
    (∀ rows sid a, (sid, a) ∈ extract_actor_records rows →
      (∃ tok, a = pyStrip tok) ∧ a ≠ [] ∧ pyLower a ≠ "unknown".toList) ∧
    (∀ records, ((create_temp_people_table records).map Prod.fst).Nodup) ∧
    (∀ records n, (n, false) ∈ create_temp_people_table records ↔
      n ∈ people_raw_tokens records) ∧
    (∀ records e, e ∈ create_temp_people_table records → e.2 = false) := by
  refine ⟨extract_actor_records_eq_spec, fun rows t t' => rfl, fun rows t => rfl,
    ?_, ?_, ?_, ?_⟩
  · intro rows sid a hmem
    rw [extract_actor_records_eq_spec] at hmem
    unfold stagerSpecCandidates at hmem
    obtain ⟨r, hr, hin⟩ := List.mem_flatMap.mp hmem
    cases hcast : r.cast with
    | none => rw [hcast] at hin; simp at hin
    | some c =>
      rw [hcast] at hin
      obtain ⟨tok, htok, hf⟩ := List.mem_filterMap.mp hin
      have hf' : (if (!(pyStrip tok = [] : Bool) &&
          !(pyLower (pyStrip tok) = "unknown".toList : Bool)) = true then
            some (r.show_id, pyStrip tok) else none) = some (sid, a) := hf
      by_cases hcond : (!(pyStrip tok = [] : Bool) &&
          !(pyLower (pyStrip tok) = "unknown".toList : Bool)) = true
      · rw [if_pos hcond] at hf'
        injection hf' with hpair
        injection hpair with hsid ha
        simp only [Bool.and_eq_true, Bool.not_eq_true', decide_eq_false_iff_not] at hcond
        refine ⟨⟨tok, ha.symm⟩, ?_, ?_⟩
        · rw [← ha]
          exact hcond.1
        · rw [← ha]
          exact hcond.2
      · rw [if_neg hcond] at hf'
        exact Option.noConfusion hf'
  · intro records
    unfold create_temp_people_table
    rw [List.map_map]
    have : (Prod.fst ∘ fun n => ((n, false) : Str × Bool)) = id := rfl
    rw [this, List.map_id]
    exact sortStrs_dedup_nodup _
  · intro records n
    unfold create_temp_people_table
    constructor
    · intro h
      obtain ⟨m, hm, heq⟩ := List.mem_map.mp h
      injection heq with h1 _
      rw [← h1]
      exact List.mem_dedup.mp (mem_sortStrs.mp hm)
    · intro h
      apply List.mem_map.mpr
      exact ⟨n, mem_sortStrs.mpr (List.mem_dedup.mpr h), rfl⟩
  · intro records e he
    unfold create_temp_people_table at he
    obtain ⟨m, _, heq⟩ := List.mem_map.mp he
    rw [← heq]

/-- Witness for C8 (amended): concrete instances — the single-row source
`("s1", cast "Anna")` stages `("s1","Anna")`, whose token facts follow from
`stager_behaviour`; and the people staging rows of the two-record input are
unprocessed. -/
theorem stager_behaviour_witness :
    (("s1".toList, "Anna".toList) ∈
      extract_actor_records [⟨"s1".toList, none, some "Anna".toList⟩]) ∧
    ((∃ tok, "Anna".toList = pyStrip tok) ∧ "Anna".toList ≠ [] ∧
      pyLower "Anna".toList ≠ "unknown".toList) ∧
    (("Anna".toList, false) ∈
      create_temp_people_table [⟨"s1".toList, none, some "Anna".toList⟩] ↔
      "Anna".toList ∈ people_raw_tokens [⟨"s1".toList, none, some "Anna".toList⟩]) :=
  ⟨by decide,
   stager_behaviour.2.2.2.1 [⟨"s1".toList, none, some "Anna".toList⟩]
     "s1".toList "Anna".toList (by decide),
   stager_behaviour.2.2.2.2.2.1 [⟨"s1".toList, none, some "Anna".toList⟩] "Anna".toList⟩

/-- C10: when the existence check's query raises,
`_check_existing_relationship` returns `False`, and the Builder proceeds to
insert the relationship (counting it created), even though the pair is
already present — it neither skips the candidate nor aborts. -/
theorem check_error_treated_as_absent (cs : CtrlState) (db : DBState)
    (rid : Nat) (sid : Str) (v : Str) (aid tid : Nat)
    (hcache : cacheGet cs.people_cache (pyStrip (pyLower v)) = some aid)
    (haid : aid ≠ 0)
    (htitle : cacheGet cs.title_cache sid = some tid) (htid : tid ≠ 0)
    (_hdup : (aid, tid) ∈ db.actors_titles) :
    check_existing_relationship ⟨false, false, false, false, true, false, false, false⟩
      db aid tid = false ∧
    process_single_record ⟨false, false, false, false, true, false, false, false⟩
      cs db rid sid v =
      (cs,
       markProcessed { db with actors_titles := db.actors_titles ++ [(aid, tid)] } rid,
       (1, 1, 0)) := by
  constructor
  · rfl
  · have hfind : find_actor_id ⟨false, false, false, false, true, false, false, false⟩
        cs db v = (some aid, cs, db) := by
      simp only [find_actor_id]
      rw [hcache]
    unfold process_single_record
    rw [hfind]
    show (if aid = 0 then mark_and_skip _ cs db rid
          else match cacheGet cs.title_cache sid with
            | none => mark_and_skip _ cs db rid
            | some tid =>
              if tid = 0 then mark_and_skip _ cs db rid
              else if check_existing_relationship _ db aid tid then
                mark_and_skip _ cs db rid
              else if (⟨false, false, false, false, true, false, false,
                  false⟩ : Faults).insert_rel_raises then
                handle_failed_record _ cs db rid
              else if (⟨false, false, false, false, true, false, false,
                  false⟩ : Faults).mark_raises then
                handle_failed_record _ cs db rid
              else
                (cs,
                 markProcessed
                   { db with actors_titles := db.actors_titles ++ [(aid, tid)] } rid,
                 (1, 1, 0))) = _
    rw [if_neg haid, htitle]
    show (if tid = 0 then mark_and_skip _ cs db rid
          else if check_existing_relationship _ db aid tid then mark_and_skip _ cs db rid
          else if (⟨false, false, false, false, true, false, false,
              false⟩ : Faults).insert_rel_raises then handle_failed_record _ cs db rid
          else if (⟨false, false, false, false, true, false, false,
              false⟩ : Faults).mark_raises then handle_failed_record _ cs db rid
          else
            (cs,
             markProcessed
               { db with actors_titles := db.actors_titles ++ [(aid, tid)] } rid,
             (1, 1, 0))) = _
    rw [if_neg htid]
    rw [show check_existing_relationship ⟨false, false, false, false, true, false, false,
      false⟩ db aid tid = false from rfl]
    rfl

/-- Witness for C10: with the pair (1,1) already present and the check
query raising, processing the candidate appends a duplicate (1,1) row and
counts it created. -/
theorem check_error_treated_as_absent_witness :
    cacheGet (⟨[("ann".toList, 1)], [("t1".toList, 1)]⟩ : CtrlState).people_cache
      (pyStrip (pyLower "Ann".toList)) = some 1 ∧
    process_single_record ⟨false, false, false, false, true, false, false, false⟩
      ⟨[("ann".toList, 1)], [("t1".toList, 1)]⟩
      ⟨[⟨1, "t1".toList, "Ann".toList, false⟩], [⟨1, "Ann".toList, none, none⟩], [1],
       [⟨1, "t1".toList⟩], [(1, 1)], 2⟩ 1 "t1".toList "Ann".toList =
      (⟨[("ann".toList, 1)], [("t1".toList, 1)]⟩,
       markProcessed
         { (⟨[⟨1, "t1".toList, "Ann".toList, false⟩], [⟨1, "Ann".toList, none, none⟩],
            [1], [⟨1, "t1".toList⟩], [(1, 1)], 2⟩ : DBState) with
             actors_titles := [(1, 1)] ++ [(1, 1)] } 1,
       (1, 1, 0)) :=
  ⟨by decide,
   (check_error_treated_as_absent ⟨[("ann".toList, 1)], [("t1".toList, 1)]⟩
     ⟨[⟨1, "t1".toList, "Ann".toList, false⟩], [⟨1, "Ann".toList, none, none⟩], [1],
      [⟨1, "t1".toList⟩], [(1, 1)], 2⟩ 1 "t1".toList "Ann".toList 1 1
     (by decide) (by decide) (by decide) (by decide) (by decide)).2⟩

/-- C1: draining the §8 scenario staging table once, with any batch size of
at least 3, returns counts (3 processed, 2 created, 1 skipped), marks all
three candidates processed, and leaves exactly 2 person rows and 2
relationship rows. -/
theorem scenario_drain_counts (bs : Nat) (hbs : 3 ≤ bs) :
    (drainScenario bs).2.2 = (3, 2, 1) ∧
    (∀ r ∈ (drainScenario bs).2.1.temp_actors_titles, r.processed = true) ∧
    (drainScenario bs).2.1.people.length = 2 ∧
    (drainScenario bs).2.1.actors_titles.length = 2 := by
  have heq : drainScenario bs = drainScenario 3 := by
    unfold drainScenario populate_actors_titles_table_from_temp
    rw [if_neg (by decide : ¬countUnprocessed scenarioDB = 0)]
    rw [if_neg (by decide : ¬countUnprocessed scenarioDB = 0)]
    rw [show countUnprocessed scenarioDB + 1 = 2 + 2 from by decide]
    rw [drain_loop_one_page _ bs (countUnprocessed scenarioDB) 2 0 _ _ _
      (by decide) (by rw [show countUnprocessed scenarioDB = 3 from by decide]; omega)]
    rw [drain_loop_one_page _ 3 (countUnprocessed scenarioDB) 2 0 _ _ _
      (by decide) (by decide)]
    have htake1 : ((unprocessedRows scenarioDB).drop 0).take bs =
        unprocessedRows scenarioDB := by
      rw [List.drop_zero]
      apply List.take_of_length_le
      calc (unprocessedRows scenarioDB).length ≤ 3 := by decide
        _ ≤ bs := hbs
    have htake2 : ((unprocessedRows scenarioDB).drop 0).take 3 =
        unprocessedRows scenarioDB := by
      rw [List.drop_zero]
      exact List.take_of_length_le (by decide)
    rw [htake1, htake2]
  rw [heq]
  refine ⟨by decide, by decide, by decide, by decide⟩

/-- Witness for C1: the scenario drain at batch size 3 itself. -/
theorem scenario_drain_counts_witness :
    3 ≤ 3 ∧
    ((drainScenario 3).2.2 = (3, 2, 1) ∧
     (∀ r ∈ (drainScenario 3).2.1.temp_actors_titles, r.processed = true) ∧
     (drainScenario 3).2.1.people.length = 2 ∧
     (drainScenario 3).2.1.actors_titles.length = 2) :=
  ⟨by decide, scenario_drain_counts 3 (by decide)⟩

/-- Counterexample for C3: the drain loop queries the unprocessed count once
and pages with `LIMIT/OFFSET` over the *shrinking* unprocessed set, so with
two unprocessed candidates and batch size 1 a single uninterrupted fault-free
drain terminates having processed only the first candidate: the second one
remains `processed = false` even though the claim says the loop terminates
only when zero unprocessed rows remain. -/
theorem drain_skips_rows :
    (populate_actors_titles_table_from_temp (fun _ => noFaults) 1 ⟨[], []⟩ pairDB).2.2 =
      (1, 1, 0) ∧
    ⟨2, "t1".toList, "Bob".toList, false⟩ ∈
      (populate_actors_titles_table_from_temp (fun _ => noFaults) 1 ⟨[], []⟩
        pairDB).2.1.temp_actors_titles ∧
    countUnprocessed
      (populate_actors_titles_table_from_temp (fun _ => noFaults) 1 ⟨[], []⟩
        pairDB).2.1 = 1 := by
  refine ⟨by decide, by decide, by decide⟩

/-- C3 as amended: the drain loop computes the unprocessed count once before
the loop (it does not re-query it per page) and pulls `LIMIT batch_size
OFFSET offset` pages from the current unprocessed rows, so growing offsets
skip over still-unprocessed rows once earlier pages were marked; a single
uninterrupted fault-free drain is guaranteed to process every initially
unprocessed candidate only when their count is at most the batch size, in
which case every staged row ends processed and the processed counter equals
the initial unprocessed count. -/
theorem drain_completes_iff_single_page (bs : Nat) (cs : CtrlState) (db : DBState)
    (hle : countUnprocessed db ≤ bs) :
    (∀ r ∈ (populate_actors_titles_table_from_temp (fun _ => noFaults) bs cs
        db).2.1.temp_actors_titles, r.processed = true) ∧
    (populate_actors_titles_table_from_temp (fun _ => noFaults) bs cs db).2.2.1 =
      countUnprocessed db :=
  populate_completes_of_le_batch bs cs db hle

/-- Witness for C3 (amended): the two-candidate staging table drains fully
with batch size 2. -/
theorem drain_completes_iff_single_page_witness :
    countUnprocessed pairDB ≤ 2 ∧
    ((∀ r ∈ (populate_actors_titles_table_from_temp (fun _ => noFaults) 2 ⟨[], []⟩
        pairDB).2.1.temp_actors_titles, r.processed = true) ∧
     (populate_actors_titles_table_from_temp (fun _ => noFaults) 2 ⟨[], []⟩
        pairDB).2.2.1 = countUnprocessed pairDB) :=
  ⟨by decide, drain_completes_iff_single_page 2 ⟨[], []⟩ pairDB (by decide)⟩

/-- Counterexample for C4: a candidate whose junction insert raises and whose
fallback mark-processed transaction also raises ends the call with nothing
recorded — `_handle_failed_record` returns `(0, 0, 0)` and the candidate
stays `processed = false`, contradicting "the candidate ends marked
processed regardless of which branch is taken". -/
theorem failed_fallback_leaves_unprocessed :
    process_single_record ⟨false, false, false, false, false, true, false, true⟩
      ⟨[("anna lee".toList, 1)], [("t1".toList, 1)]⟩
      ⟨[⟨1, "t1".toList, "Anna Lee".toList, false⟩],
       [⟨1, "Anna".toList, none, some "Lee".toList⟩], [1], [⟨1, "t1".toList⟩], [], 2⟩
      1 "t1".toList "Anna Lee".toList =
      (⟨[("anna lee".toList, 1)], [("t1".toList, 1)]⟩,
       ⟨[⟨1, "t1".toList, "Anna Lee".toList, false⟩],
        [⟨1, "Anna".toList, none, some "Lee".toList⟩], [1], [⟨1, "t1".toList⟩], [], 2⟩,
       (0, 0, 0)) := by
  decide

/-- C4 as amended: in every branch — title miss, entity-resolution failure,
duplicate relationship, successful insert, and an unexpected exception whose
fallback transaction succeeds — the candidate ends marked `processed = true`;
the single exception is an unexpected failure whose separate fallback
mark-processed transaction itself also fails, which leaves the candidate
unprocessed and reports `(0, 0, 0)`. -/
theorem candidate_always_marked_processed (fl : Faults) (cs : CtrlState) (db : DBState)
    (rid : Nat) (sid : Str) (v : Str) (hfb : fl.fallback_mark_raises = false) :
    ∀ t ∈ (process_single_record fl cs db rid sid v).2.1.temp_actors_titles,
      t.id = rid → t.processed = true :=
  process_single_record_marks hfb cs db rid sid v

/-- Witness for C4 (amended): even with the insert raising, the candidate is
marked processed when the fallback transaction works. -/
theorem candidate_always_marked_processed_witness :
    (⟨false, false, false, false, false, true, false, false⟩ : Faults).fallback_mark_raises
        = false ∧
    ∀ t ∈ (process_single_record ⟨false, false, false, false, false, true, false, false⟩
        ⟨[("anna lee".toList, 1)], [("t1".toList, 1)]⟩
        ⟨[⟨1, "t1".toList, "Anna Lee".toList, false⟩],
         [⟨1, "Anna".toList, none, some "Lee".toList⟩], [1], [⟨1, "t1".toList⟩], [], 2⟩
        1 "t1".toList "Anna Lee".toList).2.1.temp_actors_titles,
      t.id = 1 → t.processed = true :=
  ⟨rfl,
   candidate_always_marked_processed ⟨false, false, false, false, false, true, false, false⟩
     ⟨[("anna lee".toList, 1)], [("t1".toList, 1)]⟩
     ⟨[⟨1, "t1".toList, "Anna Lee".toList, false⟩],
      [⟨1, "Anna".toList, none, some "Lee".toList⟩], [1], [⟨1, "t1".toList⟩], [], 2⟩
     1 "t1".toList "Anna Lee".toList rfl⟩

/-- C5: re-draining a staging table in which every candidate is already
marked processed is a no-op — the early return leaves the whole database
untouched and reports zero counts; and more generally, whenever the
existence check can run (its query does not raise), any number of drains
preserves the invariant that the junction table has no duplicate
`(actor_id, title_id)` rows. -/
theorem redrain_noop_and_no_duplicate_rels :
    (∀ (flFor : Nat → Faults) (bs : Nat) (cs : CtrlState) (db : DBState),
      countUnprocessed db = 0 →
      populate_actors_titles_table_from_temp flFor bs cs db = (cs, db, (0, 0, 0))) ∧
    (∀ (flFor : Nat → Faults) (bs : Nat) (cs : CtrlState) (db : DBState),
      (∀ i, (flFor i).check_rel_raises = false) →
      db.actors_titles.Nodup →
      (populate_actors_titles_table_from_temp flFor bs cs db).2.1.actors_titles.Nodup) := by
  constructor
  · intro flFor bs cs db h0
    unfold populate_actors_titles_table_from_temp
    rw [if_pos h0]
  · intro flFor bs cs db hc hnd
    exact populate_nodup flFor hc bs cs db hnd

/-- Witness for C5: re-draining the fully processed two-row staging table is
a no-op, and a fault-free drain of the scenario table keeps the junction
table duplicate-free. -/
theorem redrain_noop_and_no_duplicate_rels_witness :
    countUnprocessed ⟨[⟨1, "t1".toList, "Ann".toList, true⟩], [], [], [], [(5, 7)], 1⟩ = 0 ∧
    populate_actors_titles_table_from_temp (fun _ => noFaults) 500 ⟨[], []⟩
      ⟨[⟨1, "t1".toList, "Ann".toList, true⟩], [], [], [], [(5, 7)], 1⟩ =
      (⟨[], []⟩, ⟨[⟨1, "t1".toList, "Ann".toList, true⟩], [], [], [], [(5, 7)], 1⟩,
       (0, 0, 0)) ∧
    (populate_actors_titles_table_from_temp (fun _ => noFaults) 3 ⟨[], []⟩
      scenarioDB).2.1.actors_titles.Nodup :=
  ⟨by decide,
   redrain_noop_and_no_duplicate_rels.1 (fun _ => noFaults) 500 ⟨[], []⟩
     ⟨[⟨1, "t1".toList, "Ann".toList, true⟩], [], [], [], [(5, 7)], 1⟩ (by decide),
   redrain_noop_and_no_duplicate_rels.2 (fun _ => noFaults) 3 ⟨[], []⟩ scenarioDB
     (fun _ => rfl) (by decide)⟩

/-- Counterexample for C9: entity rows are created and committed by separate
repository connections before the candidate's transaction commits.  With the
junction insert raising and the fallback mark also failing, the final
committed state contains the freshly created person and actor rows while the
candidate is still unprocessed and no relationship row exists — a committed
state in which side effects of handling the candidate persist although the
candidate is not processed. -/
theorem entity_creation_outlives_candidate_txn :
    (process_single_record ⟨false, false, false, false, false, true, false, true⟩
      ⟨[], [("t1".toList, 1)]⟩
      ⟨[⟨1, "t1".toList, "Anna Lee".toList, false⟩], [], [], [⟨1, "t1".toList⟩], [], 1⟩
      1 "t1".toList "Anna Lee".toList).2.1.people =
      [⟨1, "Anna".toList, none, some "Lee".toList⟩] ∧
    (process_single_record ⟨false, false, false, false, false, true, false, true⟩
      ⟨[], [("t1".toList, 1)]⟩
      ⟨[⟨1, "t1".toList, "Anna Lee".toList, false⟩], [], [], [⟨1, "t1".toList⟩], [], 1⟩
      1 "t1".toList "Anna Lee".toList).2.1.actors = [1] ∧
    (process_single_record ⟨false, false, false, false, false, true, false, true⟩
      ⟨[], [("t1".toList, 1)]⟩
      ⟨[⟨1, "t1".toList, "Anna Lee".toList, false⟩], [], [], [⟨1, "t1".toList⟩], [], 1⟩
      1 "t1".toList "Anna Lee".toList).2.1.actors_titles = [] ∧
    (process_single_record ⟨false, false, false, false, false, true, false, true⟩
      ⟨[], [("t1".toList, 1)]⟩
      ⟨[⟨1, "t1".toList, "Anna Lee".toList, false⟩], [], [], [⟨1, "t1".toList⟩], [], 1⟩
      1 "t1".toList "Anna Lee".toList).2.1.temp_actors_titles =
      [⟨1, "t1".toList, "Anna Lee".toList, false⟩] := by
  refine ⟨by decide, by decide, by decide, by decide⟩

/-- C9 as amended: the per-candidate transaction is atomic for the junction
insert and the processed mark — in any committed outcome, a relationship row
that is new relative to the starting state can only exist with the candidate
marked processed — but entity creation commits on separate repository
connections and is not covered by that transaction, so stopping or failing
mid-candidate can leave new person/actor rows committed while the candidate
is unprocessed. -/
theorem process_single_record_rels_or_marked (fl : Faults) (cs : CtrlState)
    (db : DBState) (rid : Nat) (sid : Str) (v : Str) {csR : CtrlState} {dbR : DBState}
    {cnt : Nat × Nat × Nat}
    (hres : process_single_record fl cs db rid sid v = (csR, dbR, cnt)) :
    dbR.actors_titles = db.actors_titles ∨ Marked dbR rid := by
  rcases hfind : find_actor_id fl cs db v with ⟨aidOpt, cs1, db1⟩
  have hdb1 : db1.actors_titles = db.actors_titles := by
    have := find_actor_id_rels fl cs db v
    rw [hfind] at this
    exact this
  unfold process_single_record at hres
  rw [hfind] at hres
  have hmas : ∀ x, mark_and_skip fl cs1 db1 rid = x → x.2.1.actors_titles =
      db.actors_titles := by
    intro x hx
    rw [← hx, rels_mark_and_skip]
    exact hdb1
  have hhf : ∀ x, handle_failed_record fl cs1 db1 rid = x → x.2.1.actors_titles =
      db.actors_titles := by
    intro x hx
    rw [← hx, rels_handle_failed]
    exact hdb1
  cases aidOpt with
  | none =>
    have hres' : mark_and_skip fl cs1 db1 rid = (csR, dbR, cnt) := hres
    exact Or.inl (hmas _ hres')
  | some aid =>
    have hres' : (if aid = 0 then mark_and_skip fl cs1 db1 rid
        else match cacheGet cs1.title_cache sid with
          | none => mark_and_skip fl cs1 db1 rid
          | some tid =>
            if tid = 0 then mark_and_skip fl cs1 db1 rid
            else if check_existing_relationship fl db1 aid tid then
              mark_and_skip fl cs1 db1 rid
            else if fl.insert_rel_raises then handle_failed_record fl cs1 db1 rid
            else if fl.mark_raises then handle_failed_record fl cs1 db1 rid
            else
              (cs1,
               markProcessed
                 { db1 with actors_titles := db1.actors_titles ++ [(aid, tid)] } rid,
               (1, 1, 0))) = (csR, dbR, cnt) := hres
    by_cases haid : aid = 0
    · rw [if_pos haid] at hres'
      exact Or.inl (hmas _ hres')
    · rw [if_neg haid] at hres'
      cases htc : cacheGet cs1.title_cache sid with
      | none =>
        rw [htc] at hres'
        exact Or.inl (hmas _ hres')
      | some tid =>
        rw [htc] at hres'
        have hres'' : (if tid = 0 then mark_and_skip fl cs1 db1 rid
            else if check_existing_relationship fl db1 aid tid then
              mark_and_skip fl cs1 db1 rid
            else if fl.insert_rel_raises then handle_failed_record fl cs1 db1 rid
            else if fl.mark_raises then handle_failed_record fl cs1 db1 rid
            else
              (cs1,
               markProcessed
                 { db1 with actors_titles := db1.actors_titles ++ [(aid, tid)] } rid,
               (1, 1, 0))) = (csR, dbR, cnt) := hres'
        by_cases htid : tid = 0
        · rw [if_pos htid] at hres''
          exact Or.inl (hmas _ hres'')
        · rw [if_neg htid] at hres''
          by_cases hchk : check_existing_relationship fl db1 aid tid = true
          · rw [if_pos hchk] at hres''
            exact Or.inl (hmas _ hres'')
          · rw [if_neg hchk] at hres''
            by_cases hins : fl.insert_rel_raises = true
            · rw [if_pos hins] at hres''
              exact Or.inl (hhf _ hres'')
            · rw [if_neg hins] at hres''
              by_cases hmk : fl.mark_raises = true
              · rw [if_pos hmk] at hres''
                exact Or.inl (hhf _ hres'')
              · rw [if_neg hmk] at hres''
                right
                have hd : markProcessed
                    { db1 with actors_titles := db1.actors_titles ++ [(aid, tid)] } rid =
                    dbR := congrArg (fun x => x.2.1) hres''
                rw [← hd]
                exact marked_markProcessed _ rid

/-- C9 as amended: the per-candidate transaction is atomic for the junction
insert and the processed mark — in any committed outcome, a relationship row
that is new relative to the starting state can only exist with the candidate
marked processed — but entity creation commits on separate repository
connections and is not covered by that transaction, so stopping or failing
mid-candidate can leave new person/actor rows committed while the candidate
is unprocessed. -/
theorem rel_insert_implies_marked (fl : Faults) (cs : CtrlState) (db : DBState)
    (rid : Nat) (sid : Str) (v : Str) :
    ∀ pair, pair ∈ (process_single_record fl cs db rid sid v).2.1.actors_titles →
      pair ∉ db.actors_titles →
      ∀ t ∈ (process_single_record fl cs db rid sid v).2.1.temp_actors_titles,
        t.id = rid → t.processed = true := by
  intro pair hin hnot
  rcases @process_single_record_rels_or_marked fl cs db rid sid v
      (process_single_record fl cs db rid sid v).1
      (process_single_record fl cs db rid sid v).2.1
      (process_single_record fl cs db rid sid v).2.2 rfl with hsame | hmarked
  · rw [hsame] at hin
    exact absurd hin hnot
  · exact hmarked

/-- Witness for C9 (amended): after a clean insert of (1,1) the candidate is
marked processed. -/
theorem rel_insert_implies_marked_witness :
    ((1, 1) ∈ (process_single_record noFaults ⟨[("ann".toList, 1)], [("t1".toList, 1)]⟩
      ⟨[⟨1, "t1".toList, "Ann".toList, false⟩], [⟨1, "Ann".toList, none, none⟩], [1],
       [⟨1, "t1".toList⟩], [], 2⟩ 1 "t1".toList "Ann".toList).2.1.actors_titles) ∧
    ((1, 1) ∉ ([] : List (Nat × Nat))) ∧
    (∀ t ∈ (process_single_record noFaults ⟨[("ann".toList, 1)], [("t1".toList, 1)]⟩
      ⟨[⟨1, "t1".toList, "Ann".toList, false⟩], [⟨1, "Ann".toList, none, none⟩], [1],
       [⟨1, "t1".toList⟩], [], 2⟩ 1 "t1".toList "Ann".toList).2.1.temp_actors_titles,
      t.id = 1 → t.processed = true) :=
  ⟨by decide, by decide,
   rel_insert_implies_marked noFaults ⟨[("ann".toList, 1)], [("t1".toList, 1)]⟩
     ⟨[⟨1, "t1".toList, "Ann".toList, false⟩], [⟨1, "Ann".toList, none, none⟩], [1],
      [⟨1, "t1".toList⟩], [], 2⟩ 1 "t1".toList "Ann".toList (1, 1) (by decide)
     (by decide)⟩

/-- C2: within one run, two `_find_actor_id` calls on raw values that
normalize (`.lower().strip()`) to the same string return the same entity id,
no matter what is resolved in between; and across any execution — any
sequence of resolver calls and controller restarts, with any faults — the
resolver never creates two person rows whose natural keys normalize
identically: the rows it adds are pairwise distinct under `personKey`. -/
theorem resolver_same_key_same_id_and_unique :
    (∀ (cs : CtrlState) (db : DBState) (v1 : Str) (f1 : Faults) (id1 : Nat)
        (cs1 : CtrlState) (db1 : DBState) (mid : List (Str × Faults))
        (cs2 : CtrlState) (db2 : DBState) (v2 : Str) (f2 : Faults) (id2 : Nat)
        (cs3 : CtrlState) (db3 : DBState),
      find_actor_id f1 cs db v1 = (some id1, cs1, db1) →
      resolveSeq mid (cs1, db1) = (cs2, db2) →
      find_actor_id f2 cs2 db2 v2 = (some id2, cs3, db3) →
      pyStrip (pyLower v1) = pyStrip (pyLower v2) →
      id1 = id2) ∧
    (∀ (events : List RunEvent) (cs : CtrlState) (db : DBState),
      ∃ new : List PersonRow,
        (runEvents events (cs, db)).2.people = db.people ++ new ∧
        new.Pairwise (fun p q => personKey p ≠ personKey q)) := by
  constructor
  · intro cs db v1 f1 id1 cs1 db1 mid cs2 db2 v2 f2 id2 cs3 db3 h1 hmid h2 hkey
    have r1 : ResolvedTo cs1.people_cache v1 id1 := find_actor_id_resolvedTo h1
    have r2 : ResolvedTo (resolveSeq mid (cs1, db1)).1.people_cache v1 id1 :=
      resolveSeq_preserves_resolvedTo mid cs1 db1 r1
    rw [hmid] at r2
    have r3 : ResolvedTo cs2.people_cache v2 id1 := resolvedTo_congr hkey r2
    have hdet := find_actor_id_of_resolvedTo r3 f2 db2
    rw [h2] at hdet
    have : some id2 = some id1 := congrArg (fun x => x.1) hdet
    exact (Option.some.inj this).symm
  · intro events cs db
    obtain ⟨new, h1, _, _, h4⟩ := runEvents_new_people events cs db
    exact ⟨new, h1, h4⟩

/-- Witness for C2: resolving `"Anna Lee"` then `"ANNA LEE"` in one fresh
run yields id 1 both times, and a fresh single-resolve execution adds one
person row. -/
theorem resolver_same_key_same_id_and_unique_witness :
    (1 : Nat) = 1 ∧
    (∃ new : List PersonRow,
      (runEvents [RunEvent.resolve "Anna Lee".toList noFaults]
        (⟨[], []⟩, emptyDB)).2.people = emptyDB.people ++ new ∧
      new.Pairwise (fun p q => personKey p ≠ personKey q)) :=
  ⟨resolver_same_key_same_id_and_unique.1 ⟨[], []⟩ emptyDB "Anna Lee".toList noFaults 1
     ⟨[("anna".toList, 1), ("anna lee".toList, 1)], []⟩
     ⟨[], [⟨1, "Anna".toList, none, some "Lee".toList⟩], [1], [], [], 2⟩ []
     ⟨[("anna".toList, 1), ("anna lee".toList, 1)], []⟩
     ⟨[], [⟨1, "Anna".toList, none, some "Lee".toList⟩], [1], [], [], 2⟩
     "ANNA LEE".toList noFaults 1
     ⟨[("anna".toList, 1), ("anna lee".toList, 1)], []⟩
     ⟨[], [⟨1, "Anna".toList, none, some "Lee".toList⟩], [1], [], [], 2⟩
     (by decide) rfl (by decide) (by decide),
   resolver_same_key_same_id_and_unique.2 [RunEvent.resolve "Anna Lee".toList noFaults]
     ⟨[], []⟩ emptyDB⟩
